import Mathlib

/-!
# ThreadPool.h: slot-based worker pool

A shallow embedding of `pi::ThreadPool<T>` and of its specialisation
`pi::ThreadPool<T*>` (src/ThreadPool.h).

Modelling choices.

* The C arrays `workFunc`, `x`, `running`, `threads` are lists of length
  `maxThreadNum`, read and written through `arrGet` and `arrSet` with the `int`
  index of the source.
* `int` and `std::atomic_int` values are mathematical integers; the counter
  `sleepThreadNum` moves by one per statement, and the development is about
  runs that stay far from the 32-bit limits.
* A work function `std::function<void(void*)>` is a function from the `void*`
  handle to a transformer of the memory `W` outside the pool. Every call made
  by a worker thread is also appended to `calls`.
* Each worker thread is a control point `Pc` in the body of `workLoop`; one
  `step` executes one source line of that body. `conditionVal[idx].wait` blocks
  (no step) until `waitReturns`, which `notify_all` triggers and which may also
  happen spuriously. Lines 157-158 (test of `running[idx]` and entry into
  `wait`) are one step.
* `Mutex[idx]` is locked only by worker `idx` and `sourceMutex[idx]` only by
  `reduce`, so neither ever blocks a step of this model; a call of `reduce` is
  one atomic transition.
-/

namespace pi

/-! ## Data model -/

/-- Read `a[i]` of a C array indexed by an `int`; `none` outside the allocation. -/
def arrGet {α : Type} (a : List α) (i : Int) : Option α :=
  if i < 0 then none else a[i.toNat]?

/-- Write `a[i] = v` on a C array indexed by an `int`. -/
def arrSet {α : Type} (a : List α) (i : Int) (v : α) : List α :=
  if i < 0 then a else a.set i.toNat v

/-- The `void*` a worker passes to a work function. -/
inductive Handle (D : Type) where
  /-- `(void*)&x[idx]`: the address of data cell `idx` of the pool, together
  with the value the cell holds at the time of the call. -/
  | cell (idx : Int) (content : D)
  /-- `(void*)x[idx]` in `ThreadPool<T*>`: the stored pointer itself. -/
  | ptr (p : D)

/-- `typedef std::function<void(void*)> WorkFunc`. -/
abbrev WorkFunc (D W : Type) := Handle D → W → W

/-- `template <typename T> void defaultFunc(void *) {}`. -/
def defaultFunc {D W : Type} : WorkFunc D W := fun _ w => w

/-- `void (U::*f)(void*)`, applied to an object pointer `U* p`. -/
abbrev MemberFunc (U D W : Type) := U → Handle D → W → W

/-- `std::bind(f, p, std::placeholders::_1)`. -/
def bind {U D W : Type} (f : MemberFunc U D W) (p : U) : WorkFunc D W :=
  fun h => f p h

/-- Control point of a worker thread inside `workLoop`. -/
inductive Pc where
  /-- default-constructed `std::thread`: no thread of execution. -/
  | noThread
  /-- at `if(running[idx] == false)`, the top of the loop body. -/
  | check
  /-- blocked in `conditionVal[idx].wait(lock)`. -/
  | wait
  /-- at `workFunc[idx](handle)`. -/
  | call
  /-- at `++sleepThreadNum`. -/
  | incr
  /-- at `workFunc[idx] = defaultFunc<T>`. -/
  | reset
  /-- at `running[idx] = false`. -/
  | clear
  deriving DecidableEq, Repr

/-- One invocation of a work function by the worker of slot `slot`. -/
structure Call (D W : Type) where
  slot : Int
  func : WorkFunc D W
  handle : Handle D

/-- The members of `ThreadPool`, the memory `world` outside the pool and the
history `calls` of work-function invocations. -/
structure ThreadPool (D W : Type) where
  maxThreadNum : Int
  sleepThreadNum : Int
  workFunc : List (WorkFunc D W)
  x : List D
  running : List Bool
  threads : List Pc
  world : W
  calls : List (Call D W)

/-- Content of freshly allocated, not yet assigned array elements. -/
structure Fresh (D W : Type) where
  func : WorkFunc D W
  flag : Bool
  cell : D

/-- `enum { WorkThreadNum = 4 }`. -/
def WorkThreadNum : Int := 4

/-- `conditionVal[idx].wait(lock)` returns: the blocked worker continues at
the call of the work function. -/
def waitReturns {D W : Type} (idx : Int) (s : ThreadPool D W) : ThreadPool D W :=
  match arrGet s.threads idx with
  | some Pc.wait => { s with threads := arrSet s.threads idx Pc.call }
  | _ => s

/-- `conditionVal[idx].notify_all()`: wakes the worker if it is blocked in
`wait`, and is lost otherwise. -/
def notifyAll {D W : Type} (idx : Int) (s : ThreadPool D W) : ThreadPool D W :=
  waitReturns idx s

/-- The allocations of the constructor (`new WorkFunc[maxThreadNum]`, ...)
and `sleepThreadNum = maxThreadNum`, before its `for` loop. -/
def allocate {D W : Type} (maxThreadNum : Int) (raw : Fresh D W) (w0 : W) : ThreadPool D W :=
  { maxThreadNum := maxThreadNum
    sleepThreadNum := maxThreadNum
    workFunc := List.replicate maxThreadNum.toNat raw.func
    x := List.replicate maxThreadNum.toNat raw.cell
    running := List.replicate maxThreadNum.toNat raw.flag
    threads := List.replicate maxThreadNum.toNat Pc.noThread
    world := w0
    calls := [] }

/-- Body of the constructor's `for` loop for one `i`. -/
def ctorBody {D W : Type} (s : ThreadPool D W) (i : Nat) : ThreadPool D W :=
  { s with
    workFunc := arrSet s.workFunc i defaultFunc
    running := arrSet s.running i false
    threads := arrSet s.threads i Pc.check }

namespace ThreadPool

variable {D W : Type}

/-! ## The primary template `ThreadPool<T>` -/

/-- `ThreadPool(int threadNum)`. -/
def new (threadNum : Int) (raw : Fresh D W) (w0 : W) : ThreadPool D W :=
  let maxThreadNum := if threadNum > WorkThreadNum then threadNum else WorkThreadNum
  (List.range maxThreadNum.toNat).foldl ctorBody (allocate maxThreadNum raw w0)

/-- `bool reduce(int idx, WorkFunc f, typename Trait<T>::reference x)`. -/
def reduce (idx : Int) (f : WorkFunc D W) (x : D) (s : ThreadPool D W) :
    Bool × ThreadPool D W :=
  if idx < 0 ∨ idx ≥ s.maxThreadNum then (false, s)
  else
    let s1 := { s with sleepThreadNum := s.sleepThreadNum - 1 }
    let s2 := { s1 with workFunc := arrSet s1.workFunc idx f }
    let s3 := { s2 with x := arrSet s2.x idx x }
    let s4 := { s3 with running := arrSet s3.running idx true }
    (true, notifyAll idx s4)

/-- `bool isSynchronize()`. -/
def isSynchronize (s : ThreadPool D W) : Bool :=
  decide (s.sleepThreadNum = s.maxThreadNum)

/-- `template<class U> bool reduce(int idx, void (U::*f)(void*), U* p,
typename Trait<T>::reference x)`. -/
def reduceMember {U : Type} (idx : Int) (f : MemberFunc U D W) (p : U) (x : D)
    (s : ThreadPool D W) : Bool × ThreadPool D W :=
  if idx < 0 ∨ idx ≥ s.maxThreadNum then (false, s)
  else
    let s1 := { s with sleepThreadNum := s.sleepThreadNum - 1 }
    let s2 := { s1 with workFunc := arrSet s1.workFunc idx (bind f p) }
    let s3 := { s2 with x := arrSet s2.x idx x }
    let s4 := { s3 with running := arrSet s3.running idx true }
    (true, notifyAll idx s4)

/-- One step of worker `idx` in `workLoop`; `none` when the worker cannot move
(blocked in `wait`, or no such thread). -/
def step (idx : Int) (s : ThreadPool D W) : Option (ThreadPool D W) :=
  match arrGet s.threads idx with
  | some Pc.check =>
    match arrGet s.running idx with
    | some false => some { s with threads := arrSet s.threads idx Pc.wait }
    | some true => some { s with threads := arrSet s.threads idx Pc.call }
    | none => none
  | some Pc.call =>
    match arrGet s.workFunc idx, arrGet s.x idx with
    | some f, some v =>
      some { s with
        world := f (Handle.cell idx v) s.world
        calls := s.calls ++ [{ slot := idx, func := f, handle := Handle.cell idx v }]
        threads := arrSet s.threads idx Pc.incr }
    | _, _ => none
  | some Pc.incr =>
    some { s with
      sleepThreadNum := s.sleepThreadNum + 1
      threads := arrSet s.threads idx Pc.reset }
  | some Pc.reset =>
    some { s with
      workFunc := arrSet s.workFunc idx defaultFunc
      threads := arrSet s.threads idx Pc.clear }
  | some Pc.clear =>
    some { s with
      running := arrSet s.running idx false
      threads := arrSet s.threads idx Pc.check }
  | _ => none

/-- Worker `idx` runs until it is back at the top of the loop body or cannot
move, for at most `fuel` steps. -/
def runWorker : Nat → Int → ThreadPool D W → ThreadPool D W
  | 0, _, s => s
  | fuel + 1, idx, s =>
    match step idx s with
    | none => s
    | some s1 =>
      if arrGet s1.threads idx = some Pc.check then s1 else runWorker fuel idx s1

/-- One iteration of the body of `while(true)` by worker `idx`: from where the
worker stands to the end of the body, or to the point where it blocks. The
body has five steps. -/
def workLoopIter (idx : Int) (s : ThreadPool D W) : ThreadPool D W :=
  runWorker 5 idx s

end ThreadPool

namespace ThreadPoolPtr

variable {D W : Type}

/-! ## The specialisation `ThreadPool<T*>`; `D` is the pointer type -/

/-- `ThreadPool(int threadNum)` of `ThreadPool<T*>`. -/
def new (threadNum : Int) (raw : Fresh D W) (w0 : W) : ThreadPool D W :=
  let maxThreadNum := if threadNum > WorkThreadNum then threadNum else WorkThreadNum
  (List.range maxThreadNum.toNat).foldl ctorBody (allocate maxThreadNum raw w0)

/-- `bool reduce(int idx, WorkFunc f, pointer x)`. -/
def reduce (idx : Int) (f : WorkFunc D W) (x : D) (s : ThreadPool D W) :
    Bool × ThreadPool D W :=
  if idx < 0 ∨ idx ≥ s.maxThreadNum then (false, s)
  else
    let s1 := { s with sleepThreadNum := s.sleepThreadNum - 1 }
    let s2 := { s1 with workFunc := arrSet s1.workFunc idx f }
    let s3 := { s2 with x := arrSet s2.x idx x }
    let s4 := { s3 with running := arrSet s3.running idx true }
    (true, notifyAll idx s4)

/-- `template<class U> bool reduce(int idx, void (U::*f)(void*), U* p, pointer x)`. -/
def reduceMember {U : Type} (idx : Int) (f : MemberFunc U D W) (p : U) (x : D)
    (s : ThreadPool D W) : Bool × ThreadPool D W :=
  if idx < 0 ∨ idx ≥ s.maxThreadNum then (false, s)
  else
    let s1 := { s with sleepThreadNum := s.sleepThreadNum - 1 }
    let s2 := { s1 with workFunc := arrSet s1.workFunc idx (bind f p) }
    let s3 := { s2 with x := arrSet s2.x idx x }
    let s4 := { s3 with running := arrSet s3.running idx true }
    (true, notifyAll idx s4)

/-- `bool isSynchronize()` of `ThreadPool<T*>`. -/
def isSynchronize (s : ThreadPool D W) : Bool :=
  decide (s.sleepThreadNum = s.maxThreadNum)

/-- One step of worker `idx` in `workLoop` of `ThreadPool<T*>`: the handle is
the stored pointer. -/
def step (idx : Int) (s : ThreadPool D W) : Option (ThreadPool D W) :=
  match arrGet s.threads idx with
  | some Pc.check =>
    match arrGet s.running idx with
    | some false => some { s with threads := arrSet s.threads idx Pc.wait }
    | some true => some { s with threads := arrSet s.threads idx Pc.call }
    | none => none
  | some Pc.call =>
    match arrGet s.workFunc idx, arrGet s.x idx with
    | some f, some v =>
      some { s with
        world := f (Handle.ptr v) s.world
        calls := s.calls ++ [{ slot := idx, func := f, handle := Handle.ptr v }]
        threads := arrSet s.threads idx Pc.incr }
    | _, _ => none
  | some Pc.incr =>
    some { s with
      sleepThreadNum := s.sleepThreadNum + 1
      threads := arrSet s.threads idx Pc.reset }
  | some Pc.reset =>
    some { s with
      workFunc := arrSet s.workFunc idx defaultFunc
      threads := arrSet s.threads idx Pc.clear }
  | some Pc.clear =>
    some { s with
      running := arrSet s.running idx false
      threads := arrSet s.threads idx Pc.check }
  | _ => none

/-- Worker `idx` of `ThreadPool<T*>` runs until it is back at the top of the
loop body or cannot move, for at most `fuel` steps. -/
def runWorker : Nat → Int → ThreadPool D W → ThreadPool D W
  | 0, _, s => s
  | fuel + 1, idx, s =>
    match step idx s with
    | none => s
    | some s1 =>
      if arrGet s1.threads idx = some Pc.check then s1 else runWorker fuel idx s1

/-- One iteration of the body of `while(true)` by worker `idx` of
`ThreadPool<T*>`. -/
def workLoopIter (idx : Int) (s : ThreadPool D W) : ThreadPool D W :=
  runWorker 5 idx s

end ThreadPoolPtr

/-! ## Well-formed pool states -/

/-- The pool owns `maxThreadNum` slots: every array has that length. -/
def WF {D W : Type} (s : ThreadPool D W) : Prop :=
  0 ≤ s.maxThreadNum ∧
  s.workFunc.length = s.maxThreadNum.toNat ∧
  s.x.length = s.maxThreadNum.toNat ∧
  s.running.length = s.maxThreadNum.toNat ∧
  s.threads.length = s.maxThreadNum.toNat

/-- The number of slots whose `running` flag is set. -/
def busy {D W : Type} (s : ThreadPool D W) : Nat :=
  s.running.count true

/-- No slot has work in flight: no `running` flag is set. -/
def NoneRunning {D W : Type} (s : ThreadPool D W) : Prop :=
  ∀ j : Int, arrGet s.running j ≠ some true

/-- The counter property of the data model: `0 ≤ sleepThreadNum ≤ N`, and
`sleepThreadNum == N` exactly when no slot has work in flight. -/
def IdleInv {D W : Type} (s : ThreadPool D W) : Prop :=
  0 ≤ s.sleepThreadNum ∧ s.sleepThreadNum ≤ s.maxThreadNum ∧
  (s.sleepThreadNum = s.maxThreadNum ↔ NoneRunning s)

/-- Every worker thread is at the top of its loop or blocked in `wait`, and no
slot is marked running. -/
def Quiescent {D W : Type} (s : ThreadPool D W) : Prop :=
  WF s ∧ NoneRunning s ∧
  ∀ j : Int, 0 ≤ j → j < s.maxThreadNum →
    arrGet s.threads j = some Pc.check ∨ arrGet s.threads j = some Pc.wait

/-- The counter accounts for the running flags, and every worker is between
two iterations: at the top of the loop, blocked in `wait` on a slot that is not
running, or woken for a slot that is running. -/
def Good {D W : Type} (s : ThreadPool D W) : Prop :=
  WF s ∧ s.sleepThreadNum = s.maxThreadNum - (busy s : Int) ∧
  ∀ j : Int, 0 ≤ j → j < s.maxThreadNum →
    arrGet s.threads j = some Pc.check ∨
    (arrGet s.threads j = some Pc.wait ∧ arrGet s.running j = some false) ∨
    (arrGet s.threads j = some Pc.call ∧ arrGet s.running j = some true)

/-! ## Runs of the pool -/

/-- An operation on the pool: a call of `reduce` by the client, or one
iteration of the loop of worker `idx`. -/
inductive Op (D W : Type) where
  | reduce (idx : Int) (f : WorkFunc D W) (x : D)
  | iter (idx : Int)

/-- The state after one operation. -/
def applyOp {D W : Type} : Op D W → ThreadPool D W → ThreadPool D W
  | Op.reduce idx f x, s => (ThreadPool.reduce idx f x s).2
  | Op.iter idx, s => ThreadPool.workLoopIter idx s

/-- The state after a sequence of operations. -/
def run {D W : Type} : List (Op D W) → ThreadPool D W → ThreadPool D W
  | [], s => s
  | o :: ops, s => run ops (applyOp o s)

/-- An event of a run in which returns of `wait` are events of their own: a
call of `reduce`, one iteration of the loop of worker `idx`, or the return of
`conditionVal[idx].wait(lock)` in worker `idx`. -/
inductive Event (D W : Type) where
  | reduce (idx : Int) (f : WorkFunc D W) (x : D)
  | iter (idx : Int)
  | wake (idx : Int)

/-- The state after one event. -/
def applyEvent {D W : Type} : Event D W → ThreadPool D W → ThreadPool D W
  | Event.reduce idx f x, s => (ThreadPool.reduce idx f x s).2
  | Event.iter idx, s => ThreadPool.workLoopIter idx s
  | Event.wake idx, s => waitReturns idx s

/-- The state after a sequence of events. -/
def runEvents {D W : Type} : List (Event D W) → ThreadPool D W → ThreadPool D W
  | [], s => s
  | e :: es, s => runEvents es (applyEvent e s)

/-- Every `reduce` of the sequence is issued with an index out of range or to
a slot whose `running` flag is clear at that time, and every return of `wait`
happens while the `running` flag of its slot is set. -/
def Orderly {D W : Type} : List (Event D W) → ThreadPool D W → Prop
  | [], _ => True
  | Event.reduce idx f x :: es, s =>
    (idx < 0 ∨ idx ≥ s.maxThreadNum ∨ arrGet s.running idx = some false) ∧
      Orderly es (applyEvent (Event.reduce idx f x) s)
  | Event.iter idx :: es, s => Orderly es (applyEvent (Event.iter idx) s)
  | Event.wake idx :: es, s =>
    arrGet s.running idx = some true ∧ Orderly es (applyEvent (Event.wake idx) s)

/-- A job of a round: slot index, work function, data. -/
structure Job (D W : Type) where
  idx : Int
  f : WorkFunc D W
  x : D

/-- A round: jobs for distinct slots, and the order in which the workers of
those slots complete. -/
structure Round (D W : Type) where
  jobs : List (Job D W)
  order : List Int

/-- The operations of a round: one `reduce` per job, then the completions. -/
def Round.ops {D W : Type} (r : Round D W) : List (Op D W) :=
  r.jobs.map (fun j => Op.reduce j.idx j.f j.x) ++ r.order.map Op.iter

/-- `void testPrint(void* x_)`: prints the `int` behind the handle; the memory
outside the pool is the list of numbers printed so far. -/
def testPrint : WorkFunc Nat (List Nat) := fun h out =>
  match h with
  | Handle.cell _ v => out ++ [v]
  | Handle.ptr p => out ++ [p]

/-- `void Tst::printTst2(void*)`: prints a fixed line, here the number `2`. -/
def printTst2 : MemberFunc Unit Nat (List Nat) := fun _ _ out => out ++ [2]

/-- Some content for the arrays the constructor allocates. -/
def demoRaw : Fresh Nat (List Nat) := { func := testPrint, flag := true, cell := 0 }

/-- `ThreadPool<int> threadPool(2)` of `tstClass`, with nothing printed yet. -/
def demoPool : ThreadPool Nat (List Nat) := ThreadPool.new 2 demoRaw []

/-- The pool of `demoPool` after `reduce(0, testPrint, 7)` and after worker 0
has passed the test of `running[0]` and called the work function: the worker
stands at `++sleepThreadNum`. -/
def demoAfterCall : Option (ThreadPool Nat (List Nat)) :=
  (ThreadPool.step 0 (ThreadPool.reduce 0 testPrint 7 demoPool).2).bind (ThreadPool.step 0)

/-- The state `demoAfterCall` written out. -/
def demoAtIncr : ThreadPool Nat (List Nat) :=
  { maxThreadNum := 4
    sleepThreadNum := 3
    workFunc := [testPrint, defaultFunc, defaultFunc, defaultFunc]
    x := [7, 0, 0, 0]
    running := [true, false, false, false]
    threads := [Pc.incr, Pc.check, Pc.check, Pc.check]
    world := [7]
    calls := [{ slot := 0, func := testPrint, handle := Handle.cell 0 7 }] }

/-- The same point of the run in `ThreadPool<int*>`. -/
def demoAfterCallPtr : Option (ThreadPool Nat (List Nat)) :=
  (ThreadPoolPtr.step 0 (ThreadPoolPtr.reduce 0 testPrint 7 demoPool).2).bind
    (ThreadPoolPtr.step 0)

/-- The pool of `demoAfterCall` after the next step of worker 0,
`++sleepThreadNum`: worker 0 has not yet executed `workFunc[0] = defaultFunc`
and `running[0] = false`. -/
def demoInWindow : Option (ThreadPool Nat (List Nat)) :=
  demoAfterCall.bind (ThreadPool.step 0)

/-- The pool of `demoInWindow` after the client calls `reduce(0, testPrint, 8)`
and worker 0 then executes its next two steps and one more iteration of its
loop. -/
def demoLostJob : Option (ThreadPool Nat (List Nat)) :=
  (((demoInWindow.map (fun t => (ThreadPool.reduce 0 testPrint 8 t).2)).bind
    (ThreadPool.step 0)).bind (ThreadPool.step 0)).map (ThreadPool.workLoopIter 0)

/-- The state `demoInWindow` in `ThreadPool<int*>`. -/
def demoInWindowPtr : Option (ThreadPool Nat (List Nat)) :=
  demoAfterCallPtr.bind (ThreadPoolPtr.step 0)

/-- The state `demoLostJob` in `ThreadPool<int*>`. -/
def demoLostJobPtr : Option (ThreadPool Nat (List Nat)) :=
  (((demoInWindowPtr.map (fun t => (ThreadPoolPtr.reduce 0 testPrint 8 t).2)).bind
    (ThreadPoolPtr.step 0)).bind (ThreadPoolPtr.step 0)).map (ThreadPoolPtr.workLoopIter 0)

/-- The pool of `demoPool` once worker 0 has found `running[0] == false` and
blocked in `wait`, with no `reduce` issued. -/
def demoWaiting : ThreadPool Nat (List Nat) := ThreadPool.workLoopIter 0 demoPool

section Arrays

variable {α : Type}

lemma arrGet_arrSet (a : List α) (i j : Int) (v : α) :
    arrGet (arrSet a i v) j
      = if i = j ∧ 0 ≤ i ∧ i.toNat < a.length then some v else arrGet a j := by
  unfold arrGet arrSet
  by_cases hi : i < 0
  · have h1 : ¬ (0 ≤ i) := by omega
    simp [hi, h1]
  · by_cases hj : j < 0
    · have hne : i ≠ j := by omega
      simp [hi, hj, hne]
    · simp only [hi, hj, if_false, List.getElem?_set]
      by_cases hij : i = j
      · subst hij
        have h0 : 0 ≤ i := by omega
        by_cases hl : i.toNat < a.length
        · simp [hl, h0]
        · have hn : a[i.toNat]? = none := List.getElem?_eq_none (by omega)
          simp [hl, hn]
      · have hne : i.toNat ≠ j.toNat := by omega
        simp [hij, hne]

lemma arrGet_arrSet_same (a : List α) (i : Int) (v : α) (h0 : 0 ≤ i)
    (h1 : i.toNat < a.length) : arrGet (arrSet a i v) i = some v := by
  rw [arrGet_arrSet]; simp [h0, h1]

lemma arrGet_arrSet_ne (a : List α) (i j : Int) (v : α) (h : j ≠ i) :
    arrGet (arrSet a i v) j = arrGet a j := by
  rw [arrGet_arrSet]
  have : i ≠ j := fun e => h e.symm
  simp [this]

@[simp] lemma length_arrSet (a : List α) (i : Int) (v : α) :
    (arrSet a i v).length = a.length := by
  unfold arrSet; split <;> simp

lemma arrGet_isSome (a : List α) (i : Int) (h0 : 0 ≤ i) (h1 : i.toNat < a.length) :
    ∃ v, arrGet a i = some v := by
  unfold arrGet
  have : ¬ i < 0 := by omega
  simp only [this, if_false]
  exact ⟨a[i.toNat], List.getElem?_eq_getElem h1⟩

lemma arrGet_eq_none_of_neg (a : List α) (i : Int) (h : i < 0) : arrGet a i = none := by
  simp [arrGet, h]

lemma arrGet_eq_none_of_ge (a : List α) (i : Int) (h : (a.length : Int) ≤ i) :
    arrGet a i = none := by
  unfold arrGet
  split
  · rfl
  · exact List.getElem?_eq_none (by omega)

lemma arrGet_some_range (a : List α) (i : Int) (v : α) (h : arrGet a i = some v) :
    0 ≤ i ∧ i.toNat < a.length := by
  unfold arrGet at h
  by_cases hi : i < 0
  · simp [hi] at h
  · simp only [hi, if_false] at h
    refine ⟨by omega, ?_⟩
    by_contra hl
    rw [List.getElem?_eq_none (by omega)] at h
    cases h

lemma arrGet_replicate (n : Nat) (v : α) (i : Int) :
    arrGet (List.replicate n v) i = if 0 ≤ i ∧ i < n then some v else none := by
  unfold arrGet
  by_cases hi : i < 0
  · have : ¬ (0 ≤ i) := by omega
    simp [hi, this]
  · have h0 : 0 ≤ i := by omega
    simp only [hi, if_false, List.getElem?_replicate, h0, true_and]
    by_cases hl : i < n
    · have : i.toNat < n := by omega
      simp [hl, this]
    · have : ¬ i.toNat < n := by omega
      simp [hl, this]

end Arrays

/-! ## Construction -/

section Construction

variable {D W : Type}

lemma ctorLoop_fields (s0 : ThreadPool D W) (k : Nat) :
    ((List.range k).foldl ctorBody s0).maxThreadNum = s0.maxThreadNum ∧
    ((List.range k).foldl ctorBody s0).sleepThreadNum = s0.sleepThreadNum ∧
    ((List.range k).foldl ctorBody s0).x = s0.x ∧
    ((List.range k).foldl ctorBody s0).world = s0.world ∧
    ((List.range k).foldl ctorBody s0).calls = s0.calls ∧
    ((List.range k).foldl ctorBody s0).workFunc.length = s0.workFunc.length ∧
    ((List.range k).foldl ctorBody s0).running.length = s0.running.length ∧
    ((List.range k).foldl ctorBody s0).threads.length = s0.threads.length := by
  induction k with
  | zero => simp
  | succ k ih =>
    rw [List.range_succ, List.foldl_append]
    obtain ⟨h1, h2, h3, h4, h5, h6, h7, h8⟩ := ih
    simp [ctorBody, h1, h2, h3, h4, h5, h6, h7, h8]

lemma ctorLoop_slots (s0 : ThreadPool D W) (k : Nat) (i : Int) (h0 : 0 ≤ i) (hk : i < k)
    (hw : (k : Int) ≤ s0.workFunc.length) (hr : (k : Int) ≤ s0.running.length)
    (ht : (k : Int) ≤ s0.threads.length) :
    arrGet ((List.range k).foldl ctorBody s0).workFunc i = some defaultFunc ∧
    arrGet ((List.range k).foldl ctorBody s0).running i = some false ∧
    arrGet ((List.range k).foldl ctorBody s0).threads i = some Pc.check := by
  induction k with
  | zero => omega
  | succ k ih =>
    rw [List.range_succ, List.foldl_append]
    obtain ⟨-, -, -, -, -, l1, l2, l3⟩ := ctorLoop_fields s0 k
    simp only [List.foldl_cons, List.foldl_nil, ctorBody]
    by_cases hik : i = (k : Int)
    · subst hik
      refine ⟨arrGet_arrSet_same _ _ _ h0 ?_, arrGet_arrSet_same _ _ _ h0 ?_,
        arrGet_arrSet_same _ _ _ h0 ?_⟩ <;> omega
    · have hlt : i < (k : Int) := by omega
      obtain ⟨a, b, c⟩ := ih hlt (by omega) (by omega) (by omega)
      rw [arrGet_arrSet_ne _ _ _ _ hik, arrGet_arrSet_ne _ _ _ _ hik,
        arrGet_arrSet_ne _ _ _ _ hik]
      exact ⟨a, b, c⟩

lemma new_eq (r : Int) (raw : Fresh D W) (w0 : W) :
    ThreadPool.new r raw w0
      = (List.range (max r 4).toNat).foldl ctorBody (allocate (max r 4) raw w0) := by
  have hm : (if r > WorkThreadNum then r else WorkThreadNum) = max r 4 := by
    simp only [WorkThreadNum]; split <;> omega
  unfold ThreadPool.new
  simp only [hm]

lemma new_maxThreadNum (r : Int) (raw : Fresh D W) (w0 : W) :
    (ThreadPool.new r raw w0).maxThreadNum = max r 4 := by
  rw [new_eq, (ctorLoop_fields _ _).1]; rfl

lemma new_sleepThreadNum (r : Int) (raw : Fresh D W) (w0 : W) :
    (ThreadPool.new r raw w0).sleepThreadNum = max r 4 := by
  rw [new_eq, (ctorLoop_fields _ _).2.1]; rfl

lemma new_calls (r : Int) (raw : Fresh D W) (w0 : W) :
    (ThreadPool.new r raw w0).calls = [] ∧ (ThreadPool.new r raw w0).world = w0 := by
  rw [new_eq, (ctorLoop_fields _ _).2.2.2.2.1, (ctorLoop_fields _ _).2.2.2.1]
  exact ⟨rfl, rfl⟩

lemma new_wf (r : Int) (raw : Fresh D W) (w0 : W) : WF (ThreadPool.new r raw w0) := by
  have hN := new_maxThreadNum r raw w0
  unfold WF
  rw [hN, new_eq]
  obtain ⟨-, -, h3, -, -, h6, h7, h8⟩ :=
    ctorLoop_fields (allocate (max r 4) raw w0) (max r 4).toNat
  rw [h3, h6, h7, h8]
  simp only [allocate, List.length_replicate, and_self, and_true]
  omega

lemma new_slots (r : Int) (raw : Fresh D W) (w0 : W) (i : Int) (h0 : 0 ≤ i)
    (h1 : i < max r 4) :
    arrGet (ThreadPool.new r raw w0).workFunc i = some defaultFunc ∧
    arrGet (ThreadPool.new r raw w0).running i = some false ∧
    arrGet (ThreadPool.new r raw w0).threads i = some Pc.check := by
  rw [new_eq]
  apply ctorLoop_slots
  · exact h0
  · omega
  all_goals simp only [allocate, List.length_replicate]; omega

lemma ptr_new_eq (r : Int) (raw : Fresh D W) (w0 : W) :
    ThreadPoolPtr.new r raw w0 = ThreadPool.new r raw w0 := rfl

lemma ptr_reduce_eq (idx : Int) (f : WorkFunc D W) (x : D) (s : ThreadPool D W) :
    ThreadPoolPtr.reduce idx f x s = ThreadPool.reduce idx f x s := rfl

lemma ptr_reduceMember_eq {U : Type} (idx : Int) (m : MemberFunc U D W) (p : U) (x : D)
    (s : ThreadPool D W) :
    ThreadPoolPtr.reduceMember idx m p x s = ThreadPool.reduceMember idx m p x s := rfl

lemma ptr_isSynchronize_eq (s : ThreadPool D W) :
    ThreadPoolPtr.isSynchronize s = ThreadPool.isSynchronize s := rfl

lemma reduce_fst (idx : Int) (f : WorkFunc D W) (x : D) (s : ThreadPool D W) :
    (ThreadPool.reduce idx f x s).1 = true ↔ 0 ≤ idx ∧ idx < s.maxThreadNum := by
  unfold ThreadPool.reduce
  split
  · simp only [Bool.false_eq_true, false_iff]; omega
  · simp only [true_iff]; omega

end Construction

/-! ## `reduce` -/

section Reduce

variable {D W : Type}

lemma arrSet_arrSet {α : Type} (a : List α) (i : Int) (v w : α) :
    arrSet (arrSet a i v) i w = arrSet a i w := by
  unfold arrSet
  split
  · rfl
  · exact List.set_set _ _ _ _

lemma waitReturns_eq (idx : Int) (s : ThreadPool D W) :
    waitReturns idx s
      = { s with threads := if arrGet s.threads idx = some Pc.wait
                              then arrSet s.threads idx Pc.call else s.threads } := by
  unfold waitReturns
  split
  · rename_i h; simp [h]
  · rename_i h
    have : ¬ arrGet s.threads idx = some Pc.wait := fun e => h e
    simp [this]

lemma reduce_valid (idx : Int) (f : WorkFunc D W) (x : D) (s : ThreadPool D W)
    (h0 : 0 ≤ idx) (h1 : idx < s.maxThreadNum) :
    ThreadPool.reduce idx f x s
      = (true, { s with
          sleepThreadNum := s.sleepThreadNum - 1
          workFunc := arrSet s.workFunc idx f
          x := arrSet s.x idx x
          running := arrSet s.running idx true
          threads := if arrGet s.threads idx = some Pc.wait
                       then arrSet s.threads idx Pc.call else s.threads }) := by
  have h : ¬ (idx < 0 ∨ idx ≥ s.maxThreadNum) := by omega
  unfold ThreadPool.reduce
  simp only [h, if_false, notifyAll, waitReturns_eq]

lemma reduce_invalid (idx : Int) (f : WorkFunc D W) (x : D) (s : ThreadPool D W)
    (h : idx < 0 ∨ idx ≥ s.maxThreadNum) : ThreadPool.reduce idx f x s = (false, s) := by
  unfold ThreadPool.reduce
  simp only [h, if_true]

lemma reduceMember_eq_reduce {U : Type} (idx : Int) (m : MemberFunc U D W) (p : U) (x : D)
    (s : ThreadPool D W) :
    ThreadPool.reduceMember idx m p x s = ThreadPool.reduce idx (bind m p) x s := rfl

lemma WF.idx_lt {s : ThreadPool D W} (hwf : WF s) {idx : Int} (h0 : 0 ≤ idx)
    (h1 : idx < s.maxThreadNum) :
    idx.toNat < s.workFunc.length ∧ idx.toNat < s.x.length ∧
    idx.toNat < s.running.length ∧ idx.toNat < s.threads.length := by
  obtain ⟨hN, a, b, c, d⟩ := hwf
  rw [a, b, c, d]
  omega

lemma WF.get {s : ThreadPool D W} (hwf : WF s) {idx : Int} (h0 : 0 ≤ idx)
    (h1 : idx < s.maxThreadNum) :
    (∃ f, arrGet s.workFunc idx = some f) ∧ (∃ v, arrGet s.x idx = some v) ∧
    (∃ b, arrGet s.running idx = some b) ∧ (∃ c, arrGet s.threads idx = some c) := by
  obtain ⟨a, b, c, d⟩ := hwf.idx_lt h0 h1
  exact ⟨arrGet_isSome _ _ h0 a, arrGet_isSome _ _ h0 b, arrGet_isSome _ _ h0 c,
    arrGet_isSome _ _ h0 d⟩

lemma WF.range_of_some {s : ThreadPool D W} (hwf : WF s) {idx : Int} {c : Pc}
    (h : arrGet s.threads idx = some c) : 0 ≤ idx ∧ idx < s.maxThreadNum := by
  obtain ⟨h0, hl⟩ := arrGet_some_range _ _ _ h
  obtain ⟨hN, -, -, -, d⟩ := hwf
  rw [d] at hl
  omega

lemma WF.range_of_running {s : ThreadPool D W} (hwf : WF s) {idx : Int} {b : Bool}
    (h : arrGet s.running idx = some b) : 0 ≤ idx ∧ idx < s.maxThreadNum := by
  obtain ⟨h0, hl⟩ := arrGet_some_range _ _ _ h
  obtain ⟨hN, -, -, c, -⟩ := hwf
  rw [c] at hl
  omega

lemma reduce_wf (idx : Int) (f : WorkFunc D W) (x : D) (s : ThreadPool D W) (hwf : WF s) :
    WF (ThreadPool.reduce idx f x s).2 := by
  by_cases h : idx < 0 ∨ idx ≥ s.maxThreadNum
  · rw [reduce_invalid idx f x s h]; exact hwf
  · rw [reduce_valid idx f x s (by omega) (by omega)]
    obtain ⟨hN, a, b, c, d⟩ := hwf
    refine ⟨hN, ?_, ?_, ?_, ?_⟩
    · simpa using a
    · simpa using b
    · simpa using c
    · show (if arrGet s.threads idx = some Pc.wait
            then arrSet s.threads idx Pc.call else s.threads).length = _
      split
      · simpa using d
      · exact d

end Reduce

/-! ## The worker loop -/

section Worker

variable {D W : Type}

lemma workLoopIter_none (idx : Int) (s : ThreadPool D W)
    (hc : arrGet s.threads idx = none) : ThreadPool.workLoopIter idx s = s := by
  simp [ThreadPool.workLoopIter, ThreadPool.runWorker, ThreadPool.step, hc]

lemma workLoopIter_wait (idx : Int) (s : ThreadPool D W)
    (hc : arrGet s.threads idx = some Pc.wait) : ThreadPool.workLoopIter idx s = s := by
  simp [ThreadPool.workLoopIter, ThreadPool.runWorker, ThreadPool.step, hc]

lemma workLoopIter_check_false (idx : Int) (s : ThreadPool D W)
    (hc : arrGet s.threads idx = some Pc.check) (hr : arrGet s.running idx = some false) :
    ThreadPool.workLoopIter idx s = { s with threads := arrSet s.threads idx Pc.wait } := by
  obtain ⟨h0, hl⟩ := arrGet_some_range _ _ _ hc
  have e1 : arrGet (arrSet s.threads idx Pc.wait) idx = some Pc.wait :=
    arrGet_arrSet_same _ _ _ h0 hl
  simp [ThreadPool.workLoopIter, ThreadPool.runWorker, ThreadPool.step, hc, hr, e1]

lemma workLoopIter_call (idx : Int) (s : ThreadPool D W) (f : WorkFunc D W) (v : D)
    (hc : arrGet s.threads idx = some Pc.call) (hf : arrGet s.workFunc idx = some f)
    (hx : arrGet s.x idx = some v) :
    ThreadPool.workLoopIter idx s
      = { s with
          world := f (Handle.cell idx v) s.world
          calls := s.calls ++ [{ slot := idx, func := f, handle := Handle.cell idx v }]
          sleepThreadNum := s.sleepThreadNum + 1
          workFunc := arrSet s.workFunc idx defaultFunc
          running := arrSet s.running idx false
          threads := arrSet s.threads idx Pc.check } := by
  obtain ⟨h0, hl⟩ := arrGet_some_range _ _ _ hc
  have e (c : Pc) : arrGet (arrSet s.threads idx c) idx = some c :=
    arrGet_arrSet_same _ _ _ h0 hl
  simp [ThreadPool.workLoopIter, ThreadPool.runWorker, ThreadPool.step, hc, hf, hx, e,
    arrSet_arrSet]

lemma workLoopIter_check_true (idx : Int) (s : ThreadPool D W) (f : WorkFunc D W) (v : D)
    (hc : arrGet s.threads idx = some Pc.check) (hr : arrGet s.running idx = some true)
    (hf : arrGet s.workFunc idx = some f) (hx : arrGet s.x idx = some v) :
    ThreadPool.workLoopIter idx s
      = { s with
          world := f (Handle.cell idx v) s.world
          calls := s.calls ++ [{ slot := idx, func := f, handle := Handle.cell idx v }]
          sleepThreadNum := s.sleepThreadNum + 1
          workFunc := arrSet s.workFunc idx defaultFunc
          running := arrSet s.running idx false
          threads := arrSet s.threads idx Pc.check } := by
  obtain ⟨h0, hl⟩ := arrGet_some_range _ _ _ hc
  have e (c : Pc) : arrGet (arrSet s.threads idx c) idx = some c :=
    arrGet_arrSet_same _ _ _ h0 hl
  simp [ThreadPool.workLoopIter, ThreadPool.runWorker, ThreadPool.step, hc, hr, hf, hx, e,
    arrSet_arrSet]

end Worker

/-! ## Counting the running flags -/

section Counting

variable {D W : Type}

lemma arrGet_getElem {α : Type} (a : List α) (i : Int) (v : α) (h : arrGet a i = some v) :
    ∃ hl : i.toNat < a.length, a[i.toNat] = v := by
  obtain ⟨h0, hl⟩ := arrGet_some_range _ _ _ h
  refine ⟨hl, ?_⟩
  unfold arrGet at h
  have hn : ¬ i < 0 := by omega
  simp only [hn, if_false, List.getElem?_eq_getElem hl, Option.some.injEq] at h
  exact h

lemma count_arrSet_true (a : List Bool) (i : Int) (h : arrGet a i = some false) :
    (arrSet a i true).count true = a.count true + 1 := by
  obtain ⟨hl, hv⟩ := arrGet_getElem _ _ _ h
  obtain ⟨h0, -⟩ := arrGet_some_range _ _ _ h
  have hn : ¬ i < 0 := by omega
  unfold arrSet
  simp only [hn, if_false]
  rw [List.count_set _ _ _ _ hl, hv]
  simp

lemma count_arrSet_false (a : List Bool) (i : Int) (h : arrGet a i = some true) :
    (arrSet a i false).count true + 1 = a.count true := by
  obtain ⟨hl, hv⟩ := arrGet_getElem _ _ _ h
  obtain ⟨h0, -⟩ := arrGet_some_range _ _ _ h
  have hn : ¬ i < 0 := by omega
  have hpos : 0 < a.count true := by
    rw [List.count_pos_iff]
    rw [← hv]
    exact List.getElem_mem hl
  unfold arrSet
  simp only [hn, if_false]
  rw [List.count_set _ _ _ _ hl, hv]
  simp
  omega

lemma arrSet_of_arrGet {α : Type} (a : List α) (i : Int) (v : α) (h : arrGet a i = some v) :
    arrSet a i v = a := by
  obtain ⟨hl, hv⟩ := arrGet_getElem _ _ _ h
  obtain ⟨h0, -⟩ := arrGet_some_range _ _ _ h
  have hn : ¬ i < 0 := by omega
  unfold arrSet
  simp only [hn, if_false]
  apply List.ext_getElem
  · simp
  · intro n h1 h2
    rw [List.getElem_set]
    split
    · rename_i e; subst e; exact hv.symm
    · rfl

lemma busy_le (s : ThreadPool D W) : busy s ≤ s.running.length :=
  List.count_le_length _ _

lemma noneRunning_iff (s : ThreadPool D W) : NoneRunning s ↔ busy s = 0 := by
  unfold NoneRunning busy
  rw [List.count_eq_zero]
  constructor
  · intro h hmem
    obtain ⟨n, hn⟩ := List.mem_iff_getElem?.mp hmem
    apply h (n : Int)
    unfold arrGet
    have : ¬ ((n : Int) < 0) := by omega
    simp only [this, if_false, Int.toNat_ofNat]
    exact hn
  · intro h j hj
    obtain ⟨hl, hv⟩ := arrGet_getElem _ _ _ hj
    exact h (hv ▸ List.getElem_mem hl)

lemma Good.idleInv {s : ThreadPool D W} (h : Good s) : IdleInv s := by
  obtain ⟨⟨hN, -, -, hr, -⟩, hc, -⟩ := h
  have hb := busy_le s
  rw [hr] at hb
  refine ⟨by omega, by omega, ?_⟩
  rw [noneRunning_iff]
  omega

end Counting

/-! ## The counter invariant along disciplined runs -/

section Invariant

variable {D W : Type}

/-- Under `Good`, an iteration of worker `idx` does one of three things: nothing
(no such worker, or blocked in `wait`), enter `wait` on a slot that is not
running, or run the job of a running slot to completion. -/
lemma iter_cases (idx : Int) (s : ThreadPool D W) (hg : Good s) :
    (ThreadPool.workLoopIter idx s = s ∧ arrGet s.running idx ≠ some true) ∨
    (arrGet s.threads idx = some Pc.check ∧ arrGet s.running idx = some false ∧
      ThreadPool.workLoopIter idx s = { s with threads := arrSet s.threads idx Pc.wait }) ∨
    (∃ f v, arrGet s.running idx = some true ∧ arrGet s.workFunc idx = some f ∧
      arrGet s.x idx = some v ∧
      (arrGet s.threads idx = some Pc.check ∨ arrGet s.threads idx = some Pc.call) ∧
      ThreadPool.workLoopIter idx s
        = { s with
            world := f (Handle.cell idx v) s.world
            calls := s.calls ++ [{ slot := idx, func := f, handle := Handle.cell idx v }]
            sleepThreadNum := s.sleepThreadNum + 1
            workFunc := arrSet s.workFunc idx defaultFunc
            running := arrSet s.running idx false
            threads := arrSet s.threads idx Pc.check }) := by
  obtain ⟨hwf, -, hth⟩ := hg
  rcases Option.eq_none_or_eq_some (arrGet s.threads idx) with hc | ⟨c, hc⟩
  · refine Or.inl ⟨workLoopIter_none idx s hc, ?_⟩
    intro hr
    obtain ⟨h0, h1⟩ := hwf.range_of_running hr
    obtain ⟨-, -, -, ⟨c, hc2⟩⟩ := hwf.get h0 h1
    rw [hc] at hc2
    cases hc2
  · obtain ⟨h0, h1⟩ := hwf.range_of_some hc
    obtain ⟨⟨f, hf⟩, ⟨v, hx⟩, ⟨b, hb⟩, -⟩ := hwf.get h0 h1
    rcases hth idx h0 h1 with h | ⟨h, hw⟩ | ⟨h, hr⟩
    · cases b with
      | false => exact Or.inr (Or.inl ⟨h, hb, workLoopIter_check_false idx s h hb⟩)
      | true =>
        exact Or.inr (Or.inr ⟨f, v, hb, hf, hx, Or.inl h,
          workLoopIter_check_true idx s f v h hb hf hx⟩)
    · exact Or.inl ⟨workLoopIter_wait idx s h, by rw [hw]; simp⟩
    · exact Or.inr (Or.inr ⟨f, v, hr, hf, hx, Or.inr h, workLoopIter_call idx s f v h hf hx⟩)

lemma good_iter (idx : Int) (s : ThreadPool D W) (hg : Good s) :
    Good (ThreadPool.workLoopIter idx s) := by
  rcases iter_cases idx s hg with ⟨h, -⟩ | ⟨hc, hr, h⟩ | ⟨f, v, hr, hf, hx, hc, h⟩
  · rw [h]; exact hg
  · rw [h]
    obtain ⟨hwf, hcnt, hth⟩ := hg
    obtain ⟨h0, h1⟩ := hwf.range_of_some hc
    obtain ⟨-, -, -, hl⟩ := hwf.idx_lt h0 h1
    refine ⟨?_, hcnt, ?_⟩
    · obtain ⟨hN, a, b, c, d⟩ := hwf
      exact ⟨hN, a, b, c, by simpa using d⟩
    · intro j hj0 hj1
      show arrGet (arrSet s.threads idx Pc.wait) j = some Pc.check ∨
        (arrGet (arrSet s.threads idx Pc.wait) j = some Pc.wait ∧ arrGet s.running j = some false) ∨
        (arrGet (arrSet s.threads idx Pc.wait) j = some Pc.call ∧ arrGet s.running j = some true)
      by_cases hji : j = idx
      · subst hji
        rw [arrGet_arrSet_same _ _ _ h0 hl]
        exact Or.inr (Or.inl ⟨rfl, hr⟩)
      · rw [arrGet_arrSet_ne _ _ _ _ hji]
        exact hth j hj0 hj1
  · rw [h]
    obtain ⟨hwf, hcnt, hth⟩ := hg
    obtain ⟨h0, h1⟩ := hwf.range_of_running hr
    obtain ⟨-, -, hlr, hl⟩ := hwf.idx_lt h0 h1
    refine ⟨?_, ?_, ?_⟩
    · obtain ⟨hN, a, b, c, d⟩ := hwf
      exact ⟨hN, by simpa using a, b, by simpa using c, by simpa using d⟩
    · show s.sleepThreadNum + 1 = s.maxThreadNum - ((arrSet s.running idx false).count true : Int)
      have := count_arrSet_false s.running idx hr
      unfold busy at hcnt
      omega
    · intro j hj0 hj1
      show arrGet (arrSet s.threads idx Pc.check) j = some Pc.check ∨
        (arrGet (arrSet s.threads idx Pc.check) j = some Pc.wait ∧
          arrGet (arrSet s.running idx false) j = some false) ∨
        (arrGet (arrSet s.threads idx Pc.check) j = some Pc.call ∧
          arrGet (arrSet s.running idx false) j = some true)
      by_cases hji : j = idx
      · subst hji
        rw [arrGet_arrSet_same _ _ _ h0 hl]
        exact Or.inl rfl
      · rw [arrGet_arrSet_ne _ _ _ _ hji, arrGet_arrSet_ne _ _ _ _ hji]
        exact hth j hj0 hj1

lemma good_reduce (idx : Int) (f : WorkFunc D W) (x : D) (s : ThreadPool D W) (hg : Good s)
    (hd : idx < 0 ∨ idx ≥ s.maxThreadNum ∨ arrGet s.running idx = some false) :
    Good (ThreadPool.reduce idx f x s).2 := by
  by_cases h : idx < 0 ∨ idx ≥ s.maxThreadNum
  · rw [reduce_invalid idx f x s h]; exact hg
  · have h0 : 0 ≤ idx := by omega
    have h1 : idx < s.maxThreadNum := by omega
    have hr : arrGet s.running idx = some false := by
      rcases hd with hd | hd | hd
      · omega
      · omega
      · exact hd
    have hwf2 := reduce_wf idx f x s hg.1
    rw [reduce_valid idx f x s h0 h1] at hwf2 ⊢
    obtain ⟨hwf, hcnt, hth⟩ := hg
    obtain ⟨-, -, hlr, hl⟩ := hwf.idx_lt h0 h1
    refine ⟨hwf2, ?_, ?_⟩
    · show s.sleepThreadNum - 1 = s.maxThreadNum - ((arrSet s.running idx true).count true : Int)
      have := count_arrSet_true s.running idx hr
      unfold busy at hcnt
      omega
    · intro j hj0 hj1
      show arrGet (if arrGet s.threads idx = some Pc.wait
              then arrSet s.threads idx Pc.call else s.threads) j = some Pc.check ∨
        (arrGet (if arrGet s.threads idx = some Pc.wait
              then arrSet s.threads idx Pc.call else s.threads) j = some Pc.wait ∧
          arrGet (arrSet s.running idx true) j = some false) ∨
        (arrGet (if arrGet s.threads idx = some Pc.wait
              then arrSet s.threads idx Pc.call else s.threads) j = some Pc.call ∧
          arrGet (arrSet s.running idx true) j = some true)
      by_cases hji : j = idx
      · subst hji
        rw [arrGet_arrSet_same _ _ _ h0 hlr]
        rcases hth j h0 h1 with hc | ⟨hc, -⟩ | ⟨-, hc⟩
        · simp [hc]
        · rw [if_pos hc, arrGet_arrSet_same _ _ _ h0 hl]
          exact Or.inr (Or.inr ⟨rfl, rfl⟩)
        · rw [hr] at hc; cases hc
      · rw [arrGet_arrSet_ne _ _ _ _ hji]
        have e : arrGet (if arrGet s.threads idx = some Pc.wait
              then arrSet s.threads idx Pc.call else s.threads) j = arrGet s.threads j := by
          split
          · exact arrGet_arrSet_ne _ _ _ _ hji
          · rfl
        rw [e]
        exact hth j hj0 hj1

lemma iter_maxThreadNum (idx : Int) (s : ThreadPool D W) (hg : Good s) :
    (ThreadPool.workLoopIter idx s).maxThreadNum = s.maxThreadNum := by
  rcases iter_cases idx s hg with ⟨h, -⟩ | ⟨-, -, h⟩ | ⟨f, v, -, -, -, -, h⟩ <;> rw [h]

lemma reduce_maxThreadNum (idx : Int) (f : WorkFunc D W) (x : D) (s : ThreadPool D W) :
    (ThreadPool.reduce idx f x s).2.maxThreadNum = s.maxThreadNum := by
  by_cases h : idx < 0 ∨ idx ≥ s.maxThreadNum
  · rw [reduce_invalid idx f x s h]
  · rw [reduce_valid idx f x s (by omega) (by omega)]

lemma good_new (r : Int) (raw : Fresh D W) (w0 : W) : Good (ThreadPool.new r raw w0) := by
  have hwf := new_wf r raw w0
  have hN := new_maxThreadNum r raw w0
  have hnone : NoneRunning (ThreadPool.new r raw w0) := by
    intro j hj
    obtain ⟨h0, h1⟩ := hwf.range_of_running hj
    rw [hN] at h1
    rw [(new_slots r raw w0 j h0 h1).2.1] at hj
    cases hj
  refine ⟨hwf, ?_, ?_⟩
  · rw [(noneRunning_iff _).mp hnone, new_sleepThreadNum, hN]; simp
  · intro j h0 h1
    rw [hN] at h1
    exact Or.inl (new_slots r raw w0 j h0 h1).2.2

end Invariant

/-! ## Range check, handoff and construction -/

section Contract

variable {D W : Type}

/-- C1: for every pool state and every index `idx` with `idx < 0` or
`idx >= maxThreadNum`, each of the four `reduce` overloads (free function and
member function, in `ThreadPool<T>` and in `ThreadPool<T*>`) returns `false`
together with the very state it was given: counter, work functions, data
cells, running flags and worker threads are all as before. -/
theorem reduce_out_of_range_unchanged {U : Type} (s : ThreadPool D W) (idx : Int)
    (f : WorkFunc D W) (m : MemberFunc U D W) (p : U) (x : D)
    (h : idx < 0 ∨ idx ≥ s.maxThreadNum) :
    ThreadPool.reduce idx f x s = (false, s) ∧
    ThreadPool.reduceMember idx m p x s = (false, s) ∧
    ThreadPoolPtr.reduce idx f x s = (false, s) ∧
    ThreadPoolPtr.reduceMember idx m p x s = (false, s) :=
  ⟨reduce_invalid idx f x s h, reduce_invalid idx (bind m p) x s h,
    reduce_invalid idx f x s h, reduce_invalid idx (bind m p) x s h⟩

/-- Index 4 on the four-slot pool `demoPool` is rejected and nothing changes. -/
theorem reduce_out_of_range_unchanged_witness :
    ((4 : Int) < 0 ∨ (4 : Int) ≥ demoPool.maxThreadNum) ∧
    ThreadPool.reduce 4 testPrint 7 demoPool = (false, demoPool) ∧
    ThreadPoolPtr.reduceMember 4 printTst2 () 7 demoPool = (false, demoPool) :=
  ⟨by decide,
    (reduce_out_of_range_unchanged demoPool 4 testPrint printTst2 () 7 (by decide)).1,
    (reduce_out_of_range_unchanged demoPool 4 testPrint printTst2 () 7 (by decide)).2.2.2⟩

/-- C2: for every pool with `maxThreadNum` slots and every `idx` with
`0 <= idx < maxThreadNum`, `reduce(idx, f, x)` returns `true`; afterwards
`sleepThreadNum` is one less, slot `idx` holds `f`, `x` and `running = true`,
every other slot has its work function, data cell, running flag and worker
thread unchanged, the worker of slot `idx` is woken if it was blocked in `wait`
and untouched otherwise, and no work function has been called (`calls` and
`world` are as before). `ThreadPool<T*>::reduce` is the same function. -/
theorem reduce_in_range_state (s : ThreadPool D W) (hwf : WF s) (idx : Int) (h0 : 0 ≤ idx)
    (h1 : idx < s.maxThreadNum) (f : WorkFunc D W) (x : D) :
    (ThreadPool.reduce idx f x s).1 = true ∧
    (ThreadPool.reduce idx f x s).2.sleepThreadNum = s.sleepThreadNum - 1 ∧
    (ThreadPool.reduce idx f x s).2.maxThreadNum = s.maxThreadNum ∧
    arrGet (ThreadPool.reduce idx f x s).2.workFunc idx = some f ∧
    arrGet (ThreadPool.reduce idx f x s).2.x idx = some x ∧
    arrGet (ThreadPool.reduce idx f x s).2.running idx = some true ∧
    (∀ j : Int, j ≠ idx →
      arrGet (ThreadPool.reduce idx f x s).2.workFunc j = arrGet s.workFunc j ∧
      arrGet (ThreadPool.reduce idx f x s).2.x j = arrGet s.x j ∧
      arrGet (ThreadPool.reduce idx f x s).2.running j = arrGet s.running j ∧
      arrGet (ThreadPool.reduce idx f x s).2.threads j = arrGet s.threads j) ∧
    arrGet (ThreadPool.reduce idx f x s).2.threads idx
      = (if arrGet s.threads idx = some Pc.wait then some Pc.call
         else arrGet s.threads idx) ∧
    (ThreadPool.reduce idx f x s).2.calls = s.calls ∧
    (ThreadPool.reduce idx f x s).2.world = s.world ∧
    WF (ThreadPool.reduce idx f x s).2 ∧
    ThreadPoolPtr.reduce idx f x s = ThreadPool.reduce idx f x s := by
  have hwf2 := reduce_wf idx f x s hwf
  obtain ⟨a, b, c, d⟩ := hwf.idx_lt h0 h1
  rw [reduce_valid idx f x s h0 h1] at hwf2 ⊢
  refine ⟨rfl, rfl, rfl, arrGet_arrSet_same _ _ _ h0 a, arrGet_arrSet_same _ _ _ h0 b,
    arrGet_arrSet_same _ _ _ h0 c, ?_, ?_, rfl, rfl, hwf2, ?_⟩
  · intro j hj
    refine ⟨arrGet_arrSet_ne _ _ _ _ hj, arrGet_arrSet_ne _ _ _ _ hj,
      arrGet_arrSet_ne _ _ _ _ hj, ?_⟩
    show arrGet (if arrGet s.threads idx = some Pc.wait
      then arrSet s.threads idx Pc.call else s.threads) j = _
    split
    · exact arrGet_arrSet_ne _ _ _ _ hj
    · rfl
  · show arrGet (if arrGet s.threads idx = some Pc.wait
      then arrSet s.threads idx Pc.call else s.threads) idx = _
    split
    · exact arrGet_arrSet_same _ _ _ h0 d
    · rfl
  · rw [ptr_reduce_eq, reduce_valid idx f x s h0 h1]

/-- Index 1 on the four-slot pool `demoPool` is accepted and the counter drops
from 4 to 3. -/
theorem reduce_in_range_state_witness :
    WF demoPool ∧ (0 : Int) ≤ 1 ∧ (1 : Int) < demoPool.maxThreadNum ∧
    (ThreadPool.reduce 1 testPrint 7 demoPool).1 = true ∧
    (ThreadPool.reduce 1 testPrint 7 demoPool).2.sleepThreadNum = demoPool.sleepThreadNum - 1 :=
  ⟨new_wf 2 demoRaw [], by decide, by decide,
    (reduce_in_range_state demoPool (new_wf 2 demoRaw []) 1 (by decide) (by decide)
      testPrint 7).1,
    (reduce_in_range_state demoPool (new_wf 2 demoRaw []) 1 (by decide) (by decide)
      testPrint 7).2.1⟩

/-- C3: for every requested worker count `r`, the constructed pool (of either
class) has `maxThreadNum = max r 4` slots, `sleepThreadNum = max r 4`, arrays of
that length, and in every slot `i` of `0 .. max r 4 - 1` the no-op work
function, `running = false` and a started worker at the top of its loop; no
work function has been called; `isSynchronize()` is true; `reduce` accepts
exactly the indices `0 <= idx < max r 4`; and a pool requested with 2 workers
accepts exactly the indices 0, 1, 2, 3. -/
theorem new_clamps_and_is_idle (r : Int) (raw : Fresh D W) (w0 : W) :
    (ThreadPool.new r raw w0).maxThreadNum = max r 4 ∧
    (ThreadPool.new r raw w0).sleepThreadNum = max r 4 ∧
    WF (ThreadPool.new r raw w0) ∧
    (∀ i : Int, 0 ≤ i → i < max r 4 →
      arrGet (ThreadPool.new r raw w0).workFunc i = some defaultFunc ∧
      arrGet (ThreadPool.new r raw w0).running i = some false ∧
      arrGet (ThreadPool.new r raw w0).threads i = some Pc.check) ∧
    (ThreadPool.new r raw w0).calls = [] ∧
    ThreadPool.isSynchronize (ThreadPool.new r raw w0) = true ∧
    (∀ (idx : Int) (f : WorkFunc D W) (x : D),
      (ThreadPool.reduce idx f x (ThreadPool.new r raw w0)).1 = true
        ↔ 0 ≤ idx ∧ idx < max r 4) ∧
    (∀ (idx : Int) (f : WorkFunc D W) (x : D),
      (ThreadPool.reduce idx f x (ThreadPool.new 2 raw w0)).1 = true
        ↔ idx = 0 ∨ idx = 1 ∨ idx = 2 ∨ idx = 3) ∧
    ThreadPoolPtr.new r raw w0 = ThreadPool.new r raw w0 ∧
    ThreadPoolPtr.isSynchronize (ThreadPoolPtr.new r raw w0) = true ∧
    (∀ (idx : Int) (f : WorkFunc D W) (x : D),
      (ThreadPoolPtr.reduce idx f x (ThreadPoolPtr.new r raw w0)).1 = true
        ↔ 0 ≤ idx ∧ idx < max r 4) := by
  have hN := new_maxThreadNum r raw w0
  have hS := new_sleepThreadNum r raw w0
  have hsync : ThreadPool.isSynchronize (ThreadPool.new r raw w0) = true := by
    simp [ThreadPool.isSynchronize, hN, hS]
  have hacc : ∀ (idx : Int) (f : WorkFunc D W) (x : D),
      (ThreadPool.reduce idx f x (ThreadPool.new r raw w0)).1 = true
        ↔ 0 ≤ idx ∧ idx < max r 4 := by
    intro idx f x
    rw [reduce_fst, hN]
  refine ⟨hN, hS, new_wf r raw w0, new_slots r raw w0, (new_calls r raw w0).1, hsync, hacc,
    ?_, rfl, hsync, hacc⟩
  intro idx f x
  rw [reduce_fst, new_maxThreadNum]
  have : max (2 : Int) 4 = 4 := by decide
  rw [this]
  omega

end Contract

/-! ## One dispatch and one iteration -/

section Iteration

variable {D W : Type}

lemma ptr_workLoopIter_none (idx : Int) (s : ThreadPool D W)
    (hc : arrGet s.threads idx = none) : ThreadPoolPtr.workLoopIter idx s = s := by
  simp [ThreadPoolPtr.workLoopIter, ThreadPoolPtr.runWorker, ThreadPoolPtr.step, hc]

lemma ptr_workLoopIter_wait (idx : Int) (s : ThreadPool D W)
    (hc : arrGet s.threads idx = some Pc.wait) : ThreadPoolPtr.workLoopIter idx s = s := by
  simp [ThreadPoolPtr.workLoopIter, ThreadPoolPtr.runWorker, ThreadPoolPtr.step, hc]

lemma ptr_workLoopIter_check_false (idx : Int) (s : ThreadPool D W)
    (hc : arrGet s.threads idx = some Pc.check) (hr : arrGet s.running idx = some false) :
    ThreadPoolPtr.workLoopIter idx s
      = { s with threads := arrSet s.threads idx Pc.wait } := by
  obtain ⟨h0, hl⟩ := arrGet_some_range _ _ _ hc
  have e1 : arrGet (arrSet s.threads idx Pc.wait) idx = some Pc.wait :=
    arrGet_arrSet_same _ _ _ h0 hl
  simp [ThreadPoolPtr.workLoopIter, ThreadPoolPtr.runWorker, ThreadPoolPtr.step, hc, hr, e1]

lemma ptr_workLoopIter_call (idx : Int) (s : ThreadPool D W) (f : WorkFunc D W) (v : D)
    (hc : arrGet s.threads idx = some Pc.call) (hf : arrGet s.workFunc idx = some f)
    (hx : arrGet s.x idx = some v) :
    ThreadPoolPtr.workLoopIter idx s
      = { s with
          world := f (Handle.ptr v) s.world
          calls := s.calls ++ [{ slot := idx, func := f, handle := Handle.ptr v }]
          sleepThreadNum := s.sleepThreadNum + 1
          workFunc := arrSet s.workFunc idx defaultFunc
          running := arrSet s.running idx false
          threads := arrSet s.threads idx Pc.check } := by
  obtain ⟨h0, hl⟩ := arrGet_some_range _ _ _ hc
  have e (c : Pc) : arrGet (arrSet s.threads idx c) idx = some c :=
    arrGet_arrSet_same _ _ _ h0 hl
  simp [ThreadPoolPtr.workLoopIter, ThreadPoolPtr.runWorker, ThreadPoolPtr.step, hc, hf, hx, e,
    arrSet_arrSet]

lemma ptr_workLoopIter_check_true (idx : Int) (s : ThreadPool D W) (f : WorkFunc D W) (v : D)
    (hc : arrGet s.threads idx = some Pc.check) (hr : arrGet s.running idx = some true)
    (hf : arrGet s.workFunc idx = some f) (hx : arrGet s.x idx = some v) :
    ThreadPoolPtr.workLoopIter idx s
      = { s with
          world := f (Handle.ptr v) s.world
          calls := s.calls ++ [{ slot := idx, func := f, handle := Handle.ptr v }]
          sleepThreadNum := s.sleepThreadNum + 1
          workFunc := arrSet s.workFunc idx defaultFunc
          running := arrSet s.running idx false
          threads := arrSet s.threads idx Pc.check } := by
  obtain ⟨h0, hl⟩ := arrGet_some_range _ _ _ hc
  have e (c : Pc) : arrGet (arrSet s.threads idx c) idx = some c :=
    arrGet_arrSet_same _ _ _ h0 hl
  simp [ThreadPoolPtr.workLoopIter, ThreadPoolPtr.runWorker, ThreadPoolPtr.step, hc, hr, hf, hx,
    e, arrSet_arrSet]

/-- The calls made in an iteration of worker `j` depend only on slot `j` and on
the calls made so far. -/
lemma iter_calls_congr (j : Int) (t u : ThreadPool D W)
    (hT : arrGet t.threads j = arrGet u.threads j)
    (hR : arrGet t.running j = arrGet u.running j)
    (hF : arrGet t.workFunc j = arrGet u.workFunc j)
    (hX : arrGet t.x j = arrGet u.x j) (hC : t.calls = u.calls) :
    (ThreadPool.workLoopIter j t).calls = (ThreadPool.workLoopIter j u).calls := by
  rcases Option.eq_none_or_eq_some (arrGet t.threads j) with hc | ⟨c, hc⟩
  · rw [workLoopIter_none j t hc, workLoopIter_none j u (hT ▸ hc)]; exact hC
  · have hc2 : arrGet u.threads j = some c := hT ▸ hc
    obtain ⟨h0, hl⟩ := arrGet_some_range _ _ _ hc
    obtain ⟨-, hl2⟩ := arrGet_some_range _ _ _ hc2
    have e (c : Pc) : arrGet (arrSet t.threads j c) j = some c :=
      arrGet_arrSet_same _ _ _ h0 hl
    have e2 (c : Pc) : arrGet (arrSet u.threads j c) j = some c :=
      arrGet_arrSet_same _ _ _ h0 hl2
    have hcall : ∀ (t1 u1 : ThreadPool D W), arrGet t1.threads j = some Pc.call →
        arrGet u1.threads j = some Pc.call → arrGet t1.workFunc j = arrGet u1.workFunc j →
        arrGet t1.x j = arrGet u1.x j → t1.calls = u1.calls →
        (ThreadPool.workLoopIter j t1).calls = (ThreadPool.workLoopIter j u1).calls := by
      intro t1 u1 k1 k2 kF kX kC
      rcases Option.eq_none_or_eq_some (arrGet t1.workFunc j) with hf | ⟨f, hf⟩
      · have hf2 := kF ▸ hf
        simp [ThreadPool.workLoopIter, ThreadPool.runWorker, ThreadPool.step, k1, k2, hf, hf2, kC]
      · have hf2 := kF ▸ hf
        rcases Option.eq_none_or_eq_some (arrGet t1.x j) with hx | ⟨v, hx⟩
        · have hx2 := kX ▸ hx
          simp [ThreadPool.workLoopIter, ThreadPool.runWorker, ThreadPool.step, k1, k2, hf, hf2, hx, hx2, kC]
        · have hx2 := kX ▸ hx
          rw [workLoopIter_call j t1 f v k1 hf hx, workLoopIter_call j u1 f v k2 hf2 hx2]
          simp [kC]
    cases c with
    | noThread =>
      simp [ThreadPool.workLoopIter, ThreadPool.runWorker, ThreadPool.step, hc, hc2, hC]
    | wait =>
      simp [ThreadPool.workLoopIter, ThreadPool.runWorker, ThreadPool.step, hc, hc2, hC]
    | incr =>
      simp [ThreadPool.workLoopIter, ThreadPool.runWorker, ThreadPool.step, hc, hc2, hC, e, e2, arrSet_arrSet]
    | reset =>
      simp [ThreadPool.workLoopIter, ThreadPool.runWorker, ThreadPool.step, hc, hc2, hC, e, e2, arrSet_arrSet]
    | clear =>
      simp [ThreadPool.workLoopIter, ThreadPool.runWorker, ThreadPool.step, hc, hc2, hC, e, e2, arrSet_arrSet]
    | call => exact hcall t u hc hc2 hF hX hC
    | check =>
      rcases Option.eq_none_or_eq_some (arrGet t.running j) with hr | ⟨b, hr⟩
      · have hr2 := hR ▸ hr
        simp [ThreadPool.workLoopIter, ThreadPool.runWorker, ThreadPool.step, hc, hc2, hr, hr2, hC]
      · have hr2 := hR ▸ hr
        cases b with
        | false =>
          rw [workLoopIter_check_false j t hc hr, workLoopIter_check_false j u hc2 hr2]
          exact hC
        | true =>
          rcases Option.eq_none_or_eq_some (arrGet t.workFunc j) with hf | ⟨f, hf⟩
          · have hf2 := hF ▸ hf
            simp [ThreadPool.workLoopIter, ThreadPool.runWorker, ThreadPool.step, hc, hc2, hr, hr2, hf, hf2,
              hC, e, e2]
          · have hf2 := hF ▸ hf
            rcases Option.eq_none_or_eq_some (arrGet t.x j) with hx | ⟨v, hx⟩
            · have hx2 := hX ▸ hx
              simp [ThreadPool.workLoopIter, ThreadPool.runWorker, ThreadPool.step, hc, hc2, hr, hr2, hf, hf2,
                hx, hx2, hC, e, e2]
            · have hx2 := hX ▸ hx
              rw [workLoopIter_check_true j t f v hc hr hf hx,
                workLoopIter_check_true j u f v hc2 hr2 hf2 hx2]
              simp [hC]

lemma ptr_iter_calls_congr (j : Int) (t u : ThreadPool D W)
    (hT : arrGet t.threads j = arrGet u.threads j)
    (hR : arrGet t.running j = arrGet u.running j)
    (hF : arrGet t.workFunc j = arrGet u.workFunc j)
    (hX : arrGet t.x j = arrGet u.x j) (hC : t.calls = u.calls) :
    (ThreadPoolPtr.workLoopIter j t).calls = (ThreadPoolPtr.workLoopIter j u).calls := by
  rcases Option.eq_none_or_eq_some (arrGet t.threads j) with hc | ⟨c, hc⟩
  · rw [ptr_workLoopIter_none j t hc, ptr_workLoopIter_none j u (hT ▸ hc)]; exact hC
  · have hc2 : arrGet u.threads j = some c := hT ▸ hc
    obtain ⟨h0, hl⟩ := arrGet_some_range _ _ _ hc
    obtain ⟨-, hl2⟩ := arrGet_some_range _ _ _ hc2
    have e (c : Pc) : arrGet (arrSet t.threads j c) j = some c :=
      arrGet_arrSet_same _ _ _ h0 hl
    have e2 (c : Pc) : arrGet (arrSet u.threads j c) j = some c :=
      arrGet_arrSet_same _ _ _ h0 hl2
    have hcall : ∀ (t1 u1 : ThreadPool D W), arrGet t1.threads j = some Pc.call →
        arrGet u1.threads j = some Pc.call → arrGet t1.workFunc j = arrGet u1.workFunc j →
        arrGet t1.x j = arrGet u1.x j → t1.calls = u1.calls →
        (ThreadPoolPtr.workLoopIter j t1).calls = (ThreadPoolPtr.workLoopIter j u1).calls := by
      intro t1 u1 k1 k2 kF kX kC
      rcases Option.eq_none_or_eq_some (arrGet t1.workFunc j) with hf | ⟨f, hf⟩
      · have hf2 := kF ▸ hf
        simp [ThreadPoolPtr.workLoopIter, ThreadPoolPtr.runWorker, ThreadPoolPtr.step, k1, k2, hf, hf2, kC]
      · have hf2 := kF ▸ hf
        rcases Option.eq_none_or_eq_some (arrGet t1.x j) with hx | ⟨v, hx⟩
        · have hx2 := kX ▸ hx
          simp [ThreadPoolPtr.workLoopIter, ThreadPoolPtr.runWorker, ThreadPoolPtr.step, k1, k2, hf, hf2, hx, hx2, kC]
        · have hx2 := kX ▸ hx
          rw [ptr_workLoopIter_call j t1 f v k1 hf hx, ptr_workLoopIter_call j u1 f v k2 hf2 hx2]
          simp [kC]
    cases c with
    | noThread =>
      simp [ThreadPoolPtr.workLoopIter, ThreadPoolPtr.runWorker, ThreadPoolPtr.step, hc, hc2, hC]
    | wait =>
      simp [ThreadPoolPtr.workLoopIter, ThreadPoolPtr.runWorker, ThreadPoolPtr.step, hc, hc2, hC]
    | incr =>
      simp [ThreadPoolPtr.workLoopIter, ThreadPoolPtr.runWorker, ThreadPoolPtr.step, hc, hc2, hC, e, e2, arrSet_arrSet]
    | reset =>
      simp [ThreadPoolPtr.workLoopIter, ThreadPoolPtr.runWorker, ThreadPoolPtr.step, hc, hc2, hC, e, e2, arrSet_arrSet]
    | clear =>
      simp [ThreadPoolPtr.workLoopIter, ThreadPoolPtr.runWorker, ThreadPoolPtr.step, hc, hc2, hC, e, e2, arrSet_arrSet]
    | call => exact hcall t u hc hc2 hF hX hC
    | check =>
      rcases Option.eq_none_or_eq_some (arrGet t.running j) with hr | ⟨b, hr⟩
      · have hr2 := hR ▸ hr
        simp [ThreadPoolPtr.workLoopIter, ThreadPoolPtr.runWorker, ThreadPoolPtr.step, hc, hc2, hr, hr2, hC]
      · have hr2 := hR ▸ hr
        cases b with
        | false =>
          rw [ptr_workLoopIter_check_false j t hc hr, ptr_workLoopIter_check_false j u hc2 hr2]
          exact hC
        | true =>
          rcases Option.eq_none_or_eq_some (arrGet t.workFunc j) with hf | ⟨f, hf⟩
          · have hf2 := hF ▸ hf
            simp [ThreadPoolPtr.workLoopIter, ThreadPoolPtr.runWorker, ThreadPoolPtr.step, hc, hc2, hr, hr2, hf, hf2,
              hC, e, e2]
          · have hf2 := hF ▸ hf
            rcases Option.eq_none_or_eq_some (arrGet t.x j) with hx | ⟨v, hx⟩
            · have hx2 := hX ▸ hx
              simp [ThreadPoolPtr.workLoopIter, ThreadPoolPtr.runWorker, ThreadPoolPtr.step, hc, hc2, hr, hr2, hf, hf2,
                hx, hx2, hC, e, e2]
            · have hx2 := hX ▸ hx
              rw [ptr_workLoopIter_check_true j t f v hc hr hf hx,
                ptr_workLoopIter_check_true j u f v hc2 hr2 hf2 hx2]
              simp [hC]

lemma reduce_then_iter (s : ThreadPool D W) (hwf : WF s) (idx : Int) (h0 : 0 ≤ idx)
    (h1 : idx < s.maxThreadNum)
    (hth : arrGet s.threads idx = some Pc.check ∨ arrGet s.threads idx = some Pc.wait)
    (f : WorkFunc D W) (x : D) :
    ThreadPool.workLoopIter idx (ThreadPool.reduce idx f x s).2
      = { s with
          world := f (Handle.cell idx x) s.world
          calls := s.calls ++ [{ slot := idx, func := f, handle := Handle.cell idx x }]
          sleepThreadNum := s.sleepThreadNum - 1 + 1
          workFunc := arrSet s.workFunc idx defaultFunc
          x := arrSet s.x idx x
          running := arrSet s.running idx false
          threads := arrSet s.threads idx Pc.check } := by
  obtain ⟨a, b, c, d⟩ := hwf.idx_lt h0 h1
  rw [reduce_valid idx f x s h0 h1]
  rcases hth with hc | hc
  · rw [workLoopIter_check_true idx _ f x (by simp [hc]) (arrGet_arrSet_same _ _ _ h0 c)
      (arrGet_arrSet_same _ _ _ h0 a) (arrGet_arrSet_same _ _ _ h0 b)]
    simp [hc, arrSet_arrSet]
  · rw [workLoopIter_call idx _ f x (by simp [hc, arrGet_arrSet_same _ _ _ h0 d])
      (arrGet_arrSet_same _ _ _ h0 a) (arrGet_arrSet_same _ _ _ h0 b)]
    simp [hc, arrSet_arrSet]

lemma ptr_reduce_then_iter (s : ThreadPool D W) (hwf : WF s) (idx : Int) (h0 : 0 ≤ idx)
    (h1 : idx < s.maxThreadNum)
    (hth : arrGet s.threads idx = some Pc.check ∨ arrGet s.threads idx = some Pc.wait)
    (f : WorkFunc D W) (x : D) :
    ThreadPoolPtr.workLoopIter idx (ThreadPoolPtr.reduce idx f x s).2
      = { s with
          world := f (Handle.ptr x) s.world
          calls := s.calls ++ [{ slot := idx, func := f, handle := Handle.ptr x }]
          sleepThreadNum := s.sleepThreadNum - 1 + 1
          workFunc := arrSet s.workFunc idx defaultFunc
          x := arrSet s.x idx x
          running := arrSet s.running idx false
          threads := arrSet s.threads idx Pc.check } := by
  obtain ⟨a, b, c, d⟩ := hwf.idx_lt h0 h1
  rw [ptr_reduce_eq, reduce_valid idx f x s h0 h1]
  rcases hth with hc | hc
  · rw [ptr_workLoopIter_check_true idx _ f x (by simp [hc]) (arrGet_arrSet_same _ _ _ h0 c)
      (arrGet_arrSet_same _ _ _ h0 a) (arrGet_arrSet_same _ _ _ h0 b)]
    simp [hc, arrSet_arrSet]
  · rw [ptr_workLoopIter_call idx _ f x (by simp [hc, arrGet_arrSet_same _ _ _ h0 d])
      (arrGet_arrSet_same _ _ _ h0 a) (arrGet_arrSet_same _ _ _ h0 b)]
    simp [hc, arrSet_arrSet]

lemma reduce_other_slot (s : ThreadPool D W) (idx j : Int) (f : WorkFunc D W) (x : D)
    (hj : j ≠ idx) :
    arrGet (ThreadPool.reduce idx f x s).2.threads j = arrGet s.threads j ∧
    arrGet (ThreadPool.reduce idx f x s).2.running j = arrGet s.running j ∧
    arrGet (ThreadPool.reduce idx f x s).2.workFunc j = arrGet s.workFunc j ∧
    arrGet (ThreadPool.reduce idx f x s).2.x j = arrGet s.x j ∧
    (ThreadPool.reduce idx f x s).2.calls = s.calls := by
  by_cases h : idx < 0 ∨ idx ≥ s.maxThreadNum
  · rw [reduce_invalid idx f x s h]; exact ⟨rfl, rfl, rfl, rfl, rfl⟩
  · rw [reduce_valid idx f x s (by omega) (by omega)]
    refine ⟨?_, arrGet_arrSet_ne _ _ _ _ hj, arrGet_arrSet_ne _ _ _ _ hj,
      arrGet_arrSet_ne _ _ _ _ hj, rfl⟩
    show arrGet (if arrGet s.threads idx = some Pc.wait
      then arrSet s.threads idx Pc.call else s.threads) j = _
    split
    · exact arrGet_arrSet_ne _ _ _ _ hj
    · rfl

/-- C4: for every valid `idx`, work function `f` and data `x`, a `reduce(idx, f,
x)` on an idle slot (not running, its worker at the top of the loop or blocked
in `wait`) followed by one iteration of worker `idx` adds exactly one call to
the history, the call of `f` by worker `idx`, and applies `f` once to the
outside memory. In `ThreadPool<T>` the handle is the address of data cell `idx`,
which holds `x`; in `ThreadPool<T*>` it is the pointer `x` itself. A further
iteration of worker `idx` calls nothing, and an iteration of any other worker
`j` makes the same calls after the `reduce` as it would have made without it.
After the iteration the running flags and the idle counter are what they were
before the `reduce`, and the worker is back at the top of its loop. -/
theorem dispatch_then_iteration_calls_once (s : ThreadPool D W) (hwf : WF s) (idx : Int)
    (h0 : 0 ≤ idx) (h1 : idx < s.maxThreadNum) (hidle : arrGet s.running idx = some false)
    (hth : arrGet s.threads idx = some Pc.check ∨ arrGet s.threads idx = some Pc.wait)
    (f : WorkFunc D W) (x : D) :
    ((ThreadPool.workLoopIter idx (ThreadPool.reduce idx f x s).2).calls
        = s.calls ++ [{ slot := idx, func := f, handle := Handle.cell idx x }] ∧
      (ThreadPool.workLoopIter idx (ThreadPool.reduce idx f x s).2).world
        = f (Handle.cell idx x) s.world ∧
      arrGet (ThreadPool.reduce idx f x s).2.x idx = some x ∧
      (ThreadPool.workLoopIter idx
          (ThreadPool.workLoopIter idx (ThreadPool.reduce idx f x s).2)).calls
        = s.calls ++ [{ slot := idx, func := f, handle := Handle.cell idx x }] ∧
      ∀ j : Int, j ≠ idx →
        (ThreadPool.workLoopIter j (ThreadPool.reduce idx f x s).2).calls
          = (ThreadPool.workLoopIter j s).calls) ∧
    ((ThreadPoolPtr.workLoopIter idx (ThreadPoolPtr.reduce idx f x s).2).calls
        = s.calls ++ [{ slot := idx, func := f, handle := Handle.ptr x }] ∧
      (ThreadPoolPtr.workLoopIter idx (ThreadPoolPtr.reduce idx f x s).2).world
        = f (Handle.ptr x) s.world ∧
      arrGet (ThreadPoolPtr.reduce idx f x s).2.x idx = some x ∧
      (ThreadPoolPtr.workLoopIter idx
          (ThreadPoolPtr.workLoopIter idx (ThreadPoolPtr.reduce idx f x s).2)).calls
        = s.calls ++ [{ slot := idx, func := f, handle := Handle.ptr x }] ∧
      ∀ j : Int, j ≠ idx →
        (ThreadPoolPtr.workLoopIter j (ThreadPoolPtr.reduce idx f x s).2).calls
          = (ThreadPoolPtr.workLoopIter j s).calls) ∧
    (ThreadPool.workLoopIter idx (ThreadPool.reduce idx f x s).2).running = s.running ∧
    (ThreadPool.workLoopIter idx (ThreadPool.reduce idx f x s).2).sleepThreadNum
      = s.sleepThreadNum ∧
    arrGet (ThreadPool.workLoopIter idx (ThreadPool.reduce idx f x s).2).threads idx
      = some Pc.check ∧
    arrGet (ThreadPoolPtr.workLoopIter idx (ThreadPoolPtr.reduce idx f x s).2).threads idx
      = some Pc.check := by
  obtain ⟨a, b, c, d⟩ := hwf.idx_lt h0 h1
  have hx : arrGet (ThreadPool.reduce idx f x s).2.x idx = some x := by
    rw [reduce_valid idx f x s h0 h1]
    exact arrGet_arrSet_same _ _ _ h0 b
  refine ⟨⟨?_, ?_, hx, ?_, ?_⟩, ⟨?_, ?_, hx, ?_, ?_⟩, ?_, ?_, ?_, ?_⟩
  · rw [reduce_then_iter s hwf idx h0 h1 hth]
  · rw [reduce_then_iter s hwf idx h0 h1 hth]
  · rw [reduce_then_iter s hwf idx h0 h1 hth,
      workLoopIter_check_false idx _ (arrGet_arrSet_same _ _ _ h0 d)
        (arrGet_arrSet_same _ _ _ h0 c)]
  · intro j hj
    obtain ⟨e1, e2, e3, e4, e5⟩ := reduce_other_slot s idx j f x hj
    exact iter_calls_congr j _ _ e1 e2 e3 e4 e5
  · rw [ptr_reduce_then_iter s hwf idx h0 h1 hth]
  · rw [ptr_reduce_then_iter s hwf idx h0 h1 hth]
  · rw [ptr_reduce_then_iter s hwf idx h0 h1 hth,
      ptr_workLoopIter_check_false idx _ (arrGet_arrSet_same _ _ _ h0 d)
        (arrGet_arrSet_same _ _ _ h0 c)]
  · intro j hj
    obtain ⟨e1, e2, e3, e4, e5⟩ := reduce_other_slot s idx j f x hj
    exact ptr_iter_calls_congr j _ _ e1 e2 e3 e4 e5
  · rw [reduce_then_iter s hwf idx h0 h1 hth]
    exact arrSet_of_arrGet _ _ _ hidle
  · rw [reduce_then_iter s hwf idx h0 h1 hth]
    show s.sleepThreadNum - 1 + 1 = s.sleepThreadNum
    omega
  · rw [reduce_then_iter s hwf idx h0 h1 hth]
    exact arrGet_arrSet_same _ _ _ h0 d
  · rw [ptr_reduce_then_iter s hwf idx h0 h1 hth]
    exact arrGet_arrSet_same _ _ _ h0 d

/-- On `demoPool`, `reduce(1, testPrint, 7)` and one iteration of worker 1 print
7 once. -/
theorem dispatch_then_iteration_calls_once_witness :
    WF demoPool ∧ (0 : Int) ≤ 1 ∧ (1 : Int) < demoPool.maxThreadNum ∧
    arrGet demoPool.running 1 = some false ∧
    (ThreadPool.workLoopIter 1 (ThreadPool.reduce 1 testPrint 7 demoPool).2).world = [7] ∧
    (ThreadPoolPtr.workLoopIter 1 (ThreadPoolPtr.reduce 1 testPrint 7 demoPool).2).calls
      = [{ slot := 1, func := testPrint, handle := Handle.ptr 7 }] :=
  ⟨new_wf 2 demoRaw [], by decide, by decide, by decide,
    (dispatch_then_iteration_calls_once demoPool (new_wf 2 demoRaw []) 1 (by decide)
      (by decide) (by decide) (Or.inl (by decide)) testPrint 7).1.2.1,
    (dispatch_then_iteration_calls_once demoPool (new_wf 2 demoRaw []) 1 (by decide)
      (by decide) (by decide) (Or.inl (by decide)) testPrint 7).2.1.1⟩

/-- C7: for every pool state, index `idx`, member function `m`, object pointer
`p` and data `x`, the member-function overload `reduce(idx, m, p, x)` returns
the same result and the same state as the free-function overload called with
the callable `g(h) = (p->*m)(h)`, in `ThreadPool<T>` and in `ThreadPool<T*>`;
and when the slot is idle, the next iteration of worker `idx` makes exactly one
call, of that callable with the slot's handle, whose effect on the outside
memory is that of `m` called on `p` with the handle. -/
theorem member_overload_agrees_with_free {U : Type} (s : ThreadPool D W) (idx : Int)
    (m : MemberFunc U D W) (p : U) (x : D) :
    ThreadPool.reduceMember idx m p x s = ThreadPool.reduce idx (fun h => m p h) x s ∧
    ThreadPoolPtr.reduceMember idx m p x s = ThreadPoolPtr.reduce idx (fun h => m p h) x s ∧
    (WF s → 0 ≤ idx → idx < s.maxThreadNum → arrGet s.running idx = some false →
      (arrGet s.threads idx = some Pc.check ∨ arrGet s.threads idx = some Pc.wait) →
      (ThreadPool.workLoopIter idx (ThreadPool.reduceMember idx m p x s).2).world
        = m p (Handle.cell idx x) s.world ∧
      (ThreadPool.workLoopIter idx (ThreadPool.reduceMember idx m p x s).2).calls
        = s.calls ++ [{ slot := idx, func := fun h => m p h, handle := Handle.cell idx x }] ∧
      (ThreadPoolPtr.workLoopIter idx (ThreadPoolPtr.reduceMember idx m p x s).2).world
        = m p (Handle.ptr x) s.world ∧
      (ThreadPoolPtr.workLoopIter idx (ThreadPoolPtr.reduceMember idx m p x s).2).calls
        = s.calls ++ [{ slot := idx, func := fun h => m p h, handle := Handle.ptr x }]) := by
  refine ⟨rfl, rfl, ?_⟩
  intro hwf h0 h1 _ hth
  have e1 : ThreadPool.reduceMember idx m p x s = ThreadPool.reduce idx (bind m p) x s := rfl
  have e2 : ThreadPoolPtr.reduceMember idx m p x s
      = ThreadPoolPtr.reduce idx (bind m p) x s := rfl
  rw [e1, e2, reduce_then_iter s hwf idx h0 h1 hth, ptr_reduce_then_iter s hwf idx h0 h1 hth]
  exact ⟨rfl, rfl, rfl, rfl⟩

/-- The call `reduce(1, &Tst::printTst2, &t, i)` of `tstClass` on `demoPool`. -/
theorem member_overload_agrees_with_free_witness :
    ThreadPool.reduceMember 1 printTst2 () 0 demoPool
      = ThreadPool.reduce 1 (fun h => printTst2 () h) 0 demoPool ∧
    (ThreadPool.workLoopIter 1 (ThreadPool.reduceMember 1 printTst2 () 0 demoPool).2).world
      = [2] :=
  ⟨(member_overload_agrees_with_free demoPool 1 printTst2 () 0).1,
    ((member_overload_agrees_with_free demoPool 1 printTst2 () 0).2.2 (new_wf 2 demoRaw [])
      (by decide) (by decide) (by decide) (Or.inl (by decide))).1⟩

end Iteration

/-! ## Completion of a job and wake-ups -/

section Completion

variable {D W : Type}

/-- The three steps of a worker that has finished executing a job (it stands
at `++sleepThreadNum`), in the order of the source: increment the idle counter,
with the work functions and running flags still untouched; store the no-op
work function into slot `idx`, with the running flags still untouched; clear
`running[idx]` and return to the top of the loop. No other slot's work
function, data cell, running flag or worker is changed, and no data cell at
all. The steps are the same in `ThreadPool<T*>`. -/
lemma completion_steps_in_order (s : ThreadPool D W) (hwf : WF s) (idx : Int)
    (hc : arrGet s.threads idx = some Pc.incr) :
    ∃ s1 s2 s3 : ThreadPool D W,
      ThreadPool.step idx s = some s1 ∧ ThreadPool.step idx s1 = some s2 ∧
      ThreadPool.step idx s2 = some s3 ∧
      ThreadPoolPtr.step idx s = some s1 ∧ ThreadPoolPtr.step idx s1 = some s2 ∧
      ThreadPoolPtr.step idx s2 = some s3 ∧
      (s1.sleepThreadNum = s.sleepThreadNum + 1 ∧ s1.workFunc = s.workFunc ∧
        s1.running = s.running) ∧
      (s2.sleepThreadNum = s.sleepThreadNum + 1 ∧
        arrGet s2.workFunc idx = some defaultFunc ∧ s2.running = s.running) ∧
      (s3.sleepThreadNum = s.sleepThreadNum + 1 ∧
        arrGet s3.workFunc idx = some defaultFunc ∧ arrGet s3.running idx = some false ∧
        arrGet s3.threads idx = some Pc.check) ∧
      (∀ j : Int, j ≠ idx →
        arrGet s3.workFunc j = arrGet s.workFunc j ∧
        arrGet s3.running j = arrGet s.running j ∧
        arrGet s3.threads j = arrGet s.threads j) ∧
      s3.x = s.x ∧ s3.calls = s.calls ∧ s3.world = s.world ∧
      s3.maxThreadNum = s.maxThreadNum := by
  obtain ⟨h0, h1⟩ := hwf.range_of_some hc
  obtain ⟨a, b, c, d⟩ := hwf.idx_lt h0 h1
  have e (c : Pc) : arrGet (arrSet s.threads idx c) idx = some c :=
    arrGet_arrSet_same _ _ _ h0 d
  refine ⟨{ s with sleepThreadNum := s.sleepThreadNum + 1
                   threads := arrSet s.threads idx Pc.reset },
    { s with sleepThreadNum := s.sleepThreadNum + 1
             workFunc := arrSet s.workFunc idx defaultFunc
             threads := arrSet s.threads idx Pc.clear },
    { s with sleepThreadNum := s.sleepThreadNum + 1
             workFunc := arrSet s.workFunc idx defaultFunc
             running := arrSet s.running idx false
             threads := arrSet s.threads idx Pc.check }, ?_, ?_, ?_, ?_, ?_, ?_,
    ⟨rfl, rfl, rfl⟩, ⟨rfl, arrGet_arrSet_same _ _ _ h0 a, rfl⟩,
    ⟨rfl, arrGet_arrSet_same _ _ _ h0 a, arrGet_arrSet_same _ _ _ h0 c, e _⟩, ?_,
    rfl, rfl, rfl, rfl⟩
  · simp [ThreadPool.step, hc]
  · simp [ThreadPool.step, e, arrSet_arrSet]
  · simp [ThreadPool.step, e, arrSet_arrSet]
  · simp [ThreadPoolPtr.step, hc]
  · simp [ThreadPoolPtr.step, e, arrSet_arrSet]
  · simp [ThreadPoolPtr.step, e, arrSet_arrSet]
  · intro j hj
    exact ⟨arrGet_arrSet_ne _ _ _ _ hj, arrGet_arrSet_ne _ _ _ _ hj,
      arrGet_arrSet_ne _ _ _ _ hj⟩

/-- C8 fails on the code. On the four-slot pool, after `reduce(0, testPrint, 7)`
worker 0 has executed the job and stands at `++sleepThreadNum` (`demoAfterCall`,
which is `demoAtIncr`: counter 3). Its next step raises the counter to 4, so
`isSynchronize()` is already true, while `running[0]` is still true and slot 0
still holds `testPrint` (`demoInWindow`). When the client, as the loop of
`testUnpoint` does on seeing `isSynchronize()`, now calls
`reduce(0, testPrint, 8)`, the worker's remaining steps store the no-op over
the new job and clear `running[0]`, and the worker then blocks in `wait`
(`demoLostJob`): only 7 was ever printed, one call was made, no slot is
running, and the counter is 3 of 4, so `isSynchronize()` is false. The same
run in `ThreadPool<T*>` ends the same way. -/
theorem increment_before_clear_loses_job :
    demoAfterCall = some demoAtIncr ∧
    arrGet demoAtIncr.threads 0 = some Pc.incr ∧
    arrGet demoAtIncr.running 0 = some true ∧
    demoInWindow.map
        (fun t => (t.sleepThreadNum, t.maxThreadNum, ThreadPool.isSynchronize t,
          arrGet t.running 0, (arrGet t.workFunc 0).map (fun g => g (Handle.cell 0 7) [])))
      = some (4, 4, true, some true, some [7]) ∧
    demoLostJob.map
        (fun t => (t.sleepThreadNum, t.maxThreadNum, ThreadPool.isSynchronize t, t.running,
          arrGet t.threads 0, t.world, t.calls.length,
          (arrGet t.workFunc 0).map (fun g => g (Handle.cell 0 8) [])))
      = some (3, 4, false, [false, false, false, false], some Pc.wait, [7], 1, some []) ∧
    demoInWindowPtr.map
        (fun t => (t.sleepThreadNum, t.maxThreadNum, ThreadPoolPtr.isSynchronize t,
          arrGet t.running 0, (arrGet t.workFunc 0).map (fun g => g (Handle.ptr 7) [])))
      = some (4, 4, true, some true, some [7]) ∧
    demoLostJobPtr.map
        (fun t => (t.sleepThreadNum, t.maxThreadNum, ThreadPoolPtr.isSynchronize t, t.running,
          arrGet t.threads 0, t.world, t.calls.length,
          (arrGet t.workFunc 0).map (fun g => g (Handle.ptr 8) [])))
      = some (3, 4, false, [false, false, false, false], some Pc.wait, [7], 1, some []) := by
  exact ⟨rfl, by decide, by decide, rfl, rfl, rfl, rfl⟩

/-- C10 fails on the code: in `demoWaiting` (`N = 4`, no `reduce` issued, worker
0 blocked in `wait`, `running[0] == false`, counter 4), when `wait` returns
the worker does not test `running[0]` again: it calls the stored work function
once, raises the counter to 5, above `maxThreadNum`, and returns to the top of
the loop; `isSynchronize()` is then false. The same holds in
`ThreadPool<T*>`. -/
theorem spurious_wake_runs_and_increments :
    arrGet demoWaiting.threads 0 = some Pc.wait ∧
    arrGet demoWaiting.running 0 = some false ∧
    demoWaiting.sleepThreadNum = 4 ∧ demoWaiting.maxThreadNum = 4 ∧
    demoWaiting.calls.length = 0 ∧
    (ThreadPool.workLoopIter 0 (waitReturns 0 demoWaiting)).sleepThreadNum = 5 ∧
    (ThreadPool.workLoopIter 0 (waitReturns 0 demoWaiting)).calls.map Call.slot = [0] ∧
    arrGet (ThreadPool.workLoopIter 0 (waitReturns 0 demoWaiting)).threads 0
      = some Pc.check ∧
    ThreadPool.isSynchronize (ThreadPool.workLoopIter 0 (waitReturns 0 demoWaiting))
      = false ∧
    (ThreadPoolPtr.workLoopIter 0 (waitReturns 0 demoWaiting)).sleepThreadNum = 5 ∧
    (ThreadPoolPtr.workLoopIter 0 (waitReturns 0 demoWaiting)).calls.map Call.slot = [0] ∧
    ThreadPoolPtr.isSynchronize (ThreadPoolPtr.workLoopIter 0 (waitReturns 0 demoWaiting))
      = false := by
  decide

end Completion

/-! ## The idle counter along runs -/

section Counter

variable {D W : Type}

lemma NoneRunning.get_false {s : ThreadPool D W} (hn : NoneRunning s) (hwf : WF s) {j : Int}
    (h0 : 0 ≤ j) (h1 : j < s.maxThreadNum) : arrGet s.running j = some false := by
  obtain ⟨-, -, ⟨b, hb⟩, -⟩ := hwf.get h0 h1
  cases b with
  | false => exact hb
  | true => exact absurd hb (hn j)

lemma quiescent_iter (j : Int) (t : ThreadPool D W) (hq : Quiescent t) :
    Quiescent (ThreadPool.workLoopIter j t) ∧
    (ThreadPool.workLoopIter j t).sleepThreadNum = t.sleepThreadNum ∧
    (ThreadPool.workLoopIter j t).maxThreadNum = t.maxThreadNum ∧
    (ThreadPool.workLoopIter j t).calls = t.calls := by
  obtain ⟨hwf, hn, hth⟩ := hq
  rcases Option.eq_none_or_eq_some (arrGet t.threads j) with hc | ⟨c, hc⟩
  · rw [workLoopIter_none j t hc]; exact ⟨⟨hwf, hn, hth⟩, rfl, rfl, rfl⟩
  · obtain ⟨h0, h1⟩ := hwf.range_of_some hc
    obtain ⟨-, -, -, hl⟩ := hwf.idx_lt h0 h1
    rcases hth j h0 h1 with h | h
    · rw [workLoopIter_check_false j t h (hn.get_false hwf h0 h1)]
      refine ⟨⟨?_, hn, ?_⟩, rfl, rfl, rfl⟩
      · obtain ⟨hN, a, b, c, d⟩ := hwf
        exact ⟨hN, a, b, c, by simpa using d⟩
      · intro k hk0 hk1
        show arrGet (arrSet t.threads j Pc.wait) k = some Pc.check ∨
          arrGet (arrSet t.threads j Pc.wait) k = some Pc.wait
        by_cases hkj : k = j
        · subst hkj
          exact Or.inr (arrGet_arrSet_same _ _ _ h0 hl)
        · rw [arrGet_arrSet_ne _ _ _ _ hkj]
          exact hth k hk0 hk1
    · rw [workLoopIter_wait j t h]; exact ⟨⟨hwf, hn, hth⟩, rfl, rfl, rfl⟩

lemma quiescent_iters (ws : List Int) (t : ThreadPool D W) (hq : Quiescent t) :
    Quiescent (run (ws.map Op.iter) t) ∧
    (run (ws.map Op.iter) t).sleepThreadNum = t.sleepThreadNum ∧
    (run (ws.map Op.iter) t).maxThreadNum = t.maxThreadNum ∧
    (run (ws.map Op.iter) t).calls = t.calls := by
  induction ws generalizing t with
  | nil => exact ⟨hq, rfl, rfl, rfl⟩
  | cons w ws ih =>
    obtain ⟨q1, c1, m1, k1⟩ := quiescent_iter w t hq
    obtain ⟨q2, c2, m2, k2⟩ := ih _ q1
    exact ⟨q2, c2.trans c1, m2.trans m1, k2.trans k1⟩

lemma new_quiescent (r : Int) (raw : Fresh D W) (w0 : W) :
    Quiescent (ThreadPool.new r raw w0) := by
  have hwf := new_wf r raw w0
  have hN := new_maxThreadNum r raw w0
  refine ⟨hwf, ?_, ?_⟩
  · intro j hj
    obtain ⟨h0, h1⟩ := hwf.range_of_running hj
    rw [hN] at h1
    rw [(new_slots r raw w0 j h0 h1).2.1] at hj
    cases hj
  · intro j h0 h1
    rw [hN] at h1
    exact Or.inl (new_slots r raw w0 j h0 h1).2.2

/-- Two dispatches to the same slot of a quiescent pool, then one iteration of
that slot's worker: only the second job is called, the pool is quiescent again
and the counter has lost one. -/
lemma double_dispatch (s : ThreadPool D W) (hq : Quiescent s) (i : Int) (h0 : 0 ≤ i)
    (h1 : i < s.maxThreadNum) (hc : arrGet s.threads i = some Pc.check)
    (f g : WorkFunc D W) (x y : D) :
    Quiescent (ThreadPool.workLoopIter i
      (ThreadPool.reduce i g y (ThreadPool.reduce i f x s).2).2) ∧
    (ThreadPool.workLoopIter i
      (ThreadPool.reduce i g y (ThreadPool.reduce i f x s).2).2).sleepThreadNum
        = s.sleepThreadNum - 1 ∧
    (ThreadPool.workLoopIter i
      (ThreadPool.reduce i g y (ThreadPool.reduce i f x s).2).2).maxThreadNum
        = s.maxThreadNum ∧
    (ThreadPool.workLoopIter i
      (ThreadPool.reduce i g y (ThreadPool.reduce i f x s).2).2).calls
        = s.calls ++ [{ slot := i, func := g, handle := Handle.cell i y }] := by
  obtain ⟨hwf, hn, hth⟩ := hq
  have hwf1 := reduce_wf i f x s hwf
  have hm1 := reduce_maxThreadNum i f x s
  have hc1 : arrGet (ThreadPool.reduce i f x s).2.threads i = some Pc.check := by
    rw [reduce_valid i f x s h0 h1]
    simp [hc]
  rw [reduce_then_iter _ hwf1 i h0 (by rw [hm1]; exact h1) (Or.inl hc1)]
  rw [reduce_valid i f x s h0 h1]
  have hr : arrGet s.running i = some false := hn.get_false hwf h0 h1
  have e1 : arrSet (arrSet s.running i true) i false = s.running := by
    rw [arrSet_arrSet, arrSet_of_arrGet _ _ _ hr]
  have e2 : arrSet s.threads i Pc.check = s.threads := arrSet_of_arrGet _ _ _ hc
  simp only [hc, if_false, reduceCtorEq, Option.some.injEq, e1, e2]
  refine ⟨⟨?_, hn, hth⟩, by omega, trivial, trivial⟩
  obtain ⟨hN, a, b, c, d⟩ := hwf
  exact ⟨hN, by simpa using a, by simpa using b, c, d⟩

/-- C9: `reduce` never looks at the running flag. For every well-formed pool
and valid `idx` whose slot has `running == true`, `reduce(idx, g, y)` returns
`true`, stores `g` and `y` over the pending work function and data, and
decrements the idle counter again. Hence, for every pool size and slot `i`, two
`reduce` calls to slot `i` of a fresh pool followed by one completed iteration
of worker `i` reach a state with no slot running and the counter at
`maxThreadNum - 1`: `isSynchronize()` is false, only the second job was called,
and whatever further iterations the workers make, the counter stays at
`maxThreadNum - 1` with no slot running. -/
theorem busy_slot_dispatch_loses_count (s : ThreadPool D W) (hwf : WF s) (idx : Int)
    (h0 : 0 ≤ idx) (h1 : idx < s.maxThreadNum) (hbusy : arrGet s.running idx = some true)
    (g : WorkFunc D W) (y : D) :
    ((ThreadPool.reduce idx g y s).1 = true ∧
      arrGet (ThreadPool.reduce idx g y s).2.workFunc idx = some g ∧
      arrGet (ThreadPool.reduce idx g y s).2.x idx = some y ∧
      arrGet (ThreadPool.reduce idx g y s).2.running idx = some true ∧
      (ThreadPool.reduce idx g y s).2.running = s.running ∧
      (ThreadPool.reduce idx g y s).2.sleepThreadNum = s.sleepThreadNum - 1) ∧
    (∀ (r : Int) (raw : Fresh D W) (w0 : W) (i : Int) (f : WorkFunc D W) (x : D),
      0 ≤ i → i < max r 4 →
      NoneRunning (ThreadPool.workLoopIter i
        (ThreadPool.reduce i g y (ThreadPool.reduce i f x (ThreadPool.new r raw w0)).2).2) ∧
      (ThreadPool.workLoopIter i
        (ThreadPool.reduce i g y
          (ThreadPool.reduce i f x (ThreadPool.new r raw w0)).2).2).sleepThreadNum
          = max r 4 - 1 ∧
      (ThreadPool.workLoopIter i
        (ThreadPool.reduce i g y
          (ThreadPool.reduce i f x (ThreadPool.new r raw w0)).2).2).maxThreadNum
          = max r 4 ∧
      ThreadPool.isSynchronize (ThreadPool.workLoopIter i
        (ThreadPool.reduce i g y (ThreadPool.reduce i f x (ThreadPool.new r raw w0)).2).2)
          = false ∧
      (ThreadPool.workLoopIter i
        (ThreadPool.reduce i g y
          (ThreadPool.reduce i f x (ThreadPool.new r raw w0)).2).2).calls
          = [{ slot := i, func := g, handle := Handle.cell i y }] ∧
      ∀ ws : List Int,
        (run (ws.map Op.iter) (ThreadPool.workLoopIter i
          (ThreadPool.reduce i g y
            (ThreadPool.reduce i f x (ThreadPool.new r raw w0)).2).2)).sleepThreadNum
            = max r 4 - 1 ∧
        NoneRunning (run (ws.map Op.iter) (ThreadPool.workLoopIter i
          (ThreadPool.reduce i g y
            (ThreadPool.reduce i f x (ThreadPool.new r raw w0)).2).2))) := by
  constructor
  · obtain ⟨a, b, c, d⟩ := hwf.idx_lt h0 h1
    rw [reduce_valid idx g y s h0 h1]
    exact ⟨rfl, arrGet_arrSet_same _ _ _ h0 a, arrGet_arrSet_same _ _ _ h0 b,
      arrGet_arrSet_same _ _ _ h0 c, arrSet_of_arrGet _ _ _ hbusy, rfl⟩
  · intro r raw w0 i f x hi0 hi1
    have hN := new_maxThreadNum r raw w0
    have hS := new_sleepThreadNum r raw w0
    obtain ⟨hq, hcnt, hmax, hcalls⟩ := double_dispatch (ThreadPool.new r raw w0)
      (new_quiescent r raw w0) i hi0 (by rw [hN]; exact hi1)
      (new_slots r raw w0 i hi0 hi1).2.2 f g x y
    rw [hS] at hcnt
    rw [hN] at hmax
    rw [(new_calls r raw w0).1] at hcalls
    refine ⟨hq.2.1, hcnt, hmax, ?_, by simpa using hcalls, ?_⟩
    · simp only [ThreadPool.isSynchronize, hcnt, hmax, decide_eq_false_iff_not]
      omega
    · intro ws
      obtain ⟨q, c, -, -⟩ := quiescent_iters ws _ hq
      exact ⟨by rw [c, hcnt], q.2.1⟩

/-- A second `reduce` to the running slot 0 of `demoAtIncr` is accepted and takes
the counter from 3 to 2. -/
theorem busy_slot_dispatch_loses_count_witness :
    WF demoAtIncr ∧ (0 : Int) ≤ 0 ∧ (0 : Int) < demoAtIncr.maxThreadNum ∧
    arrGet demoAtIncr.running 0 = some true ∧
    (ThreadPool.reduce 0 testPrint 9 demoAtIncr).1 = true ∧
    (ThreadPool.reduce 0 testPrint 9 demoAtIncr).2.sleepThreadNum = 2 :=
  ⟨by unfold WF; decide, by decide, by decide, by decide, by decide,
    (busy_slot_dispatch_loses_count demoAtIncr (by unfold WF; decide) 0 (by decide)
      (by decide) (by decide) testPrint 9).1.2.2.2.2.2⟩

lemma good_wake (idx : Int) (s : ThreadPool D W) (hg : Good s)
    (hr : arrGet s.running idx = some true) : waitReturns idx s = s := by
  obtain ⟨h0, h1⟩ := hg.1.range_of_running hr
  rw [waitReturns_eq]
  have hne : ¬ arrGet s.threads idx = some Pc.wait := by
    intro hw
    rcases hg.2.2 idx h0 h1 with h | ⟨-, h⟩ | ⟨h, -⟩
    · rw [hw] at h; cases h
    · rw [hr] at h; cases h
    · rw [hw] at h; cases h
  simp [hne]

lemma good_applyEvent (e : Event D W) (es : List (Event D W)) (s : ThreadPool D W)
    (hg : Good s) (hd : Orderly (e :: es) s) :
    Good (applyEvent e s) ∧ Orderly es (applyEvent e s) ∧
    (applyEvent e s).maxThreadNum = s.maxThreadNum := by
  cases e with
  | reduce idx f x =>
    exact ⟨good_reduce idx f x s hg hd.1, hd.2, reduce_maxThreadNum idx f x s⟩
  | iter idx => exact ⟨good_iter idx s hg, hd, iter_maxThreadNum idx s hg⟩
  | wake idx =>
    have e1 : applyEvent (Event.wake idx) s = s := good_wake idx s hg hd.1
    have h2 := hd.2
    rw [e1] at h2 ⊢
    exact ⟨hg, h2, rfl⟩

lemma good_runEvents (es : List (Event D W)) (s : ThreadPool D W) (hg : Good s)
    (hd : Orderly es s) :
    Good (runEvents es s) ∧ (runEvents es s).maxThreadNum = s.maxThreadNum := by
  induction es generalizing s with
  | nil => exact ⟨hg, rfl⟩
  | cons e es ih =>
    obtain ⟨h1, h2, h3⟩ := good_applyEvent e es s hg hd
    obtain ⟨g1, g2⟩ := ih _ h1 h2
    exact ⟨g1, g2.trans h3⟩

/-- C5 fails as stated, on the fresh four-slot pool `demoPool`, in three ways.
The run `reduce(0, ..); reduce(0, ..); iteration of worker 0` reaches a state
with no slot running and the counter at 3. Five `reduce` calls to slot 0 reach
a state with the counter at -1. And with no `reduce` at all, worker 0 blocks in
`wait`, the `wait` returns, and the iteration goes on to a state with no slot
running and the counter at 5. None of these states satisfies the counter
property. -/
theorem counter_property_fails_on_undisciplined_runs :
    (run [Op.reduce 0 testPrint 7, Op.reduce 0 testPrint 8, Op.iter 0] demoPool).sleepThreadNum
      = 3 ∧
    (run [Op.reduce 0 testPrint 7, Op.reduce 0 testPrint 8, Op.iter 0] demoPool).maxThreadNum
      = 4 ∧
    (run [Op.reduce 0 testPrint 7, Op.reduce 0 testPrint 8, Op.iter 0] demoPool).running
      = [false, false, false, false] ∧
    ¬ IdleInv (run [Op.reduce 0 testPrint 7, Op.reduce 0 testPrint 8, Op.iter 0] demoPool) ∧
    (run [Op.reduce 0 testPrint 7, Op.reduce 0 testPrint 7, Op.reduce 0 testPrint 7,
      Op.reduce 0 testPrint 7, Op.reduce 0 testPrint 7] demoPool).sleepThreadNum = -1 ∧
    ¬ IdleInv (run [Op.reduce 0 testPrint 7, Op.reduce 0 testPrint 7, Op.reduce 0 testPrint 7,
      Op.reduce 0 testPrint 7, Op.reduce 0 testPrint 7] demoPool) ∧
    (runEvents [Event.iter 0, Event.wake 0, Event.iter 0] demoPool).sleepThreadNum = 5 ∧
    (runEvents [Event.iter 0, Event.wake 0, Event.iter 0] demoPool).maxThreadNum = 4 ∧
    (runEvents [Event.iter 0, Event.wake 0, Event.iter 0] demoPool).running
      = [false, false, false, false] ∧
    ¬ IdleInv (runEvents [Event.iter 0, Event.wake 0, Event.iter 0] demoPool) := by
  refine ⟨by decide, by decide, by decide, ?_, by decide, ?_, by decide, by decide,
    by decide, ?_⟩
  · intro h
    have hn : NoneRunning
        (run [Op.reduce 0 testPrint 7, Op.reduce 0 testPrint 8, Op.iter 0] demoPool) := by
      rw [noneRunning_iff]; decide
    have hc := h.2.2.mpr hn
    revert hc
    decide
  · intro h
    have hc := h.1
    revert hc
    decide
  · intro h
    have hc := h.2.1
    revert hc
    decide

/-- C5, as the code has it: take any sequence of `reduce` calls, worker-loop
iterations and returns of a worker's `wait`, starting from a freshly
constructed pool, in which every `reduce` is issued with an index out of range
or to a slot whose running flag is clear at that time, and every return of
`wait` happens while the running flag of its slot is set. In the state such a
sequence reaches, the counter satisfies `0 <= sleepThreadNum <= N`, and
`sleepThreadNum == N` (`isSynchronize()` returns true) if and only if no slot
has `running == true`. -/
theorem counter_property_on_disciplined_runs (r : Int) (raw : Fresh D W) (w0 : W)
    (es : List (Event D W)) (hd : Orderly es (ThreadPool.new r raw w0)) :
    IdleInv (runEvents es (ThreadPool.new r raw w0)) ∧
    (runEvents es (ThreadPool.new r raw w0)).maxThreadNum = max r 4 ∧
    (ThreadPool.isSynchronize (runEvents es (ThreadPool.new r raw w0)) = true
      ↔ NoneRunning (runEvents es (ThreadPool.new r raw w0))) := by
  obtain ⟨hg, hm⟩ := good_runEvents es _ (good_new r raw w0) hd
  have hinv := hg.idleInv
  refine ⟨hinv, ?_, ?_⟩
  · rw [hm, new_maxThreadNum]
  · rw [← hinv.2.2]
    simp [ThreadPool.isSynchronize]

/-- A run on `demoPool` that dispatches only to slots that are not running and
in which `wait` returns only for a slot that is running. -/
theorem counter_property_on_disciplined_runs_witness :
    Orderly [Event.iter 1, Event.reduce 0 testPrint 7, Event.wake 0, Event.iter 0,
      Event.reduce 0 testPrint 8, Event.reduce 1 testPrint 9, Event.wake 1, Event.iter 1]
      demoPool ∧
    IdleInv (runEvents [Event.iter 1, Event.reduce 0 testPrint 7, Event.wake 0, Event.iter 0,
      Event.reduce 0 testPrint 8, Event.reduce 1 testPrint 9, Event.wake 1, Event.iter 1]
      demoPool) ∧
    (runEvents [Event.iter 1, Event.reduce 0 testPrint 7, Event.wake 0, Event.iter 0,
      Event.reduce 0 testPrint 8, Event.reduce 1 testPrint 9, Event.wake 1, Event.iter 1]
      demoPool).world = [7, 9] :=
  ⟨by simp only [Orderly]; decide,
    (counter_property_on_disciplined_runs 2 demoRaw [] [Event.iter 1,
      Event.reduce 0 testPrint 7, Event.wake 0, Event.iter 0, Event.reduce 0 testPrint 8,
      Event.reduce 1 testPrint 9, Event.wake 1, Event.iter 1]
      (by simp only [Orderly]; decide)).1,
    by decide⟩

end Counter

/-! ## Rounds of dispatch and completion -/

section Rounds

variable {D W : Type}

end Rounds

end pi
